import Mathlib

/-!
# go-crud: the voting engine, the stores and the handlers

A shallow embedding of `pkg/voting/voting.go`, `pkg/post/post.go`,
`pkg/post/repo.go` (`Add`, `Update`, `Delete`, `GetById`, `AddComment`,
`GetCategoryPosts`, `GetUserPosts`, `Vote`, `removeVote`,
`getUserVoteFromPost`, `updatePercentage`), of the handlers of
`pkg/post/handlers.go` that require identity, of `pkg/user/repo.go` (`Add`,
`GetByUsernameAndPass`), `pkg/user/api/handlers.go` (`LogIn`, `Register`),
`pkg/sessions/manager.go` (`CheckRedis`, `AddToRedis`, `CleanupUserSessions`,
`GetAuthUser`), `pkg/middleware/auth.go`, `common.HashPass` and
`common.RandStringRunes`.

Conventions of the embedding:

* Go slices of pointers (`[]*voting.Vote`) are lists of values; a post decoded
  by `GetById` owns its slice, so there is no aliasing to track.
* Go `int` is `Int`.  The only arithmetic is on counters bounded by the length
  of a slice and on the constants 1 and 100, far below `2^63`, so no wrap-around
  can occur; integer division is Go's truncating division, `Int.tdiv`.
* Go `error` values are `Option Error` (`none` is `nil`).
* The Mongo collection behind `Repo.posts` is the list of its documents; the
  outcome of every driver call that can fail is an explicit argument.
* Go strings that are hashed or compared as bytes are lists of bytes; the
  table `users` is the list of its rows, the Redis server the list of its hash
  entries.  Clock readings and random strings are explicit arguments.
* Handlers written against an interface take the interface as a record of
  functions and return, with the response, the calls they made.
-/

namespace Crud

/-! ## pkg/voting/voting.go -/

/-- Go `voting.VotingScore` (an `int`). -/
abbrev VotingScore := Int

/-- Constant `voting.ScoreUp`. -/
def ScoreUp : VotingScore := 1
/-- Constant `voting.ScoreDiscard`. -/
def ScoreDiscard : VotingScore := 0
/-- Constant `voting.ScoreDown`. -/
def ScoreDown : VotingScore := -1

/-- Go `voting.Vote`. -/
structure Vote where
  UserId : String
  Score : VotingScore
deriving DecidableEq, Repr

/-- The zero value `voting.Vote{}`. -/
def Vote.zero : Vote := { UserId := "", Score := 0 }

/-! ## pkg/user/user.go, pkg/comment/comment.go, pkg/post/post.go -/

/-- Go `user.User`; the password is a byte string. -/
structure User where
  Username : String
  Password : List Nat
  Id : String
deriving DecidableEq, Repr

/-- Go `comment.Comment`; `Created` is a Unix time stamp. -/
structure Comment where
  Id : String
  Author : Option User
  Created : Int
  Body : String
deriving DecidableEq, Repr

/-- Go `post.Post`; `Created` is a Unix time stamp and `PostType` is the field `Type`. -/
structure Post where
  Author : Option User
  Comments : List Comment
  Votes : List Vote
  Id : String
  Title : String
  PostType : String
  Text : String
  URL : String
  Category : String
  Views : Int
  Score : Int
  UpvotePercentage : Int
  Created : Int
deriving DecidableEq, Repr

/-- Go `error` values: a base error, a driver error carrying an error label
(`mongo.LabeledError`), or an error wrapped by `fmt.Errorf("... %w", err)`. -/
inductive Error where
  | base (msg : String)
  | labelled (label : String) (msg : String)
  | wrap (msg : String) (inner : Error)
deriving DecidableEq, Repr

/-- Go `err.Error()`: the message; a wrapping error prints its format followed
by the message of the wrapped error. -/
def Error.message : Error → String
  | Error.base msg => msg
  | Error.labelled _ msg => msg
  | Error.wrap msg inner => msg ++ inner.message

/-- The driver's `errorHasLabel(err, label)`: the label is looked for along the
`Unwrap` chain of the error. -/
def Error.hasLabel : Error → String → Bool
  | Error.base _, _ => false
  | Error.labelled l _, label => decide (l = label)
  | Error.wrap _ inner, label => inner.hasLabel label

/-! ## pkg/post/repo.go -/

/-- The body of the `if` in `removeVote`, at index `idx` of a non-empty slice:
`Votes[idx] = Votes[len-1]; Votes[len-1] = &voting.Vote{}; Votes = Votes[:len-1]`. -/
def removeAt (votes : List Vote) (idx : Nat) : List Vote :=
  match votes.getLast? with
  | none => votes
  | some last => (((votes.set idx last).set (votes.length - 1) Vote.zero).take (votes.length - 1))

/-- The `for idx, v := range post.Votes` loop of `removeVote`: `rest` is the part
of the slice still to visit and `idx` the index of its head. -/
def removeVoteLoop (votes : List Vote) (userId : String) : List Vote → Nat → List Vote
  | [], _ => votes
  | v :: rest, idx =>
    if v.UserId = userId then removeAt votes idx
    else removeVoteLoop votes userId rest (idx + 1)

/-- Go `removeVote(post, userId)`. -/
def removeVote (post : Post) (userId : String) : Post :=
  { post with Votes := removeVoteLoop post.Votes userId post.Votes 0 }

/-- The loop of `getUserVoteFromPost` over the votes not yet visited. -/
def getUserVoteLoop (userId : String) : List Vote → Option Vote × Bool
  | [] => (none, false)
  | v :: rest => if v.UserId = userId then (some v, true) else getUserVoteLoop userId rest

/-- Go `(*Repo).getUserVoteFromPost(post, userId)`. -/
def getUserVoteFromPost (post : Post) (userId : String) : Option Vote × Bool :=
  getUserVoteLoop userId post.Votes

/-- The counting loop of `updatePercentage`: the pair `(upCount, downCount)`. -/
def countVotes : List Vote → Int × Int → Int × Int
  | [], acc => acc
  | v :: rest, (upCount, downCount) =>
    if v.Score = 1 then countVotes rest (upCount + 1, downCount)
    else if v.Score = -1 then countVotes rest (upCount, downCount + 1)
    else countVotes rest (upCount, downCount)

/-- Go `updatePercentage(post)`. -/
def updatePercentage (post : Post) : Post :=
  let counts := countVotes post.Votes (0, 0)
  let upCount := counts.1
  let downCount := counts.2
  let score := upCount - downCount
  let totalVotes := upCount + downCount
  let pct := if totalVotes > 0 then (Int.tdiv upCount totalVotes) * 100 else 0
  { post with UpvotePercentage := pct, Score := score }

/-- The in-memory part of the transaction callback of `Repo.Vote`, up to and
including `updatePercentage(post)`. -/
def voteMutation (post : Post) (newVote : Vote) : Post :=
  let userAlreadyVoted := (getUserVoteFromPost post newVote.UserId).2
  let post1 :=
    if !userAlreadyVoted && newVote.Score != ScoreDiscard then
      { post with Votes := post.Votes ++ [newVote] }
    else
      removeVote post newVote.UserId
  updatePercentage post1

/-- Go `post.Repo`: `posts` holds the documents of the Mongo collection. -/
structure Repo where
  posts : List Post
deriving DecidableEq, Repr

/-- Driver call `UpdateOne(ctx, bson.M{"id": id}, bson.M{"$set": p})` when it
succeeds: the first document whose `id` matches gets every field of `p`; with no
match nothing is written. -/
def updateOneSet : List Post → String → Post → List Post
  | [], _, _ => []
  | d :: ds, id, p => if d.Id = id then p :: ds else d :: updateOneSet ds id p

/-- Go `(*Repo).Update(ctx, p)`.  `updateOneErr` is the error returned by the
driver's `UpdateOne`; a failed `UpdateOne` writes nothing. -/
def Repo.Update (r : Repo) (updateOneErr : Option Error) (p : Post) : Option Error × Repo :=
  match updateOneErr with
  | some err => (some (Error.wrap "post/repo: failed updating post: " err), r)
  | none => (none, { posts := updateOneSet r.posts p.Id p })

/-- Driver call `FindOne(ctx, bson.M{"id": id})`: the first document whose `id` matches. -/
def findOne : List Post → String → Option Post
  | [], _ => none
  | d :: ds, id => if d.Id = id then some d else findOne ds id

/-- Go `(*Repo).GetById(ctx, id)`: `Decode` fails when no document matches. -/
def Repo.GetById (r : Repo) (id : String) : Except Error Post :=
  match findOne r.posts id with
  | some post => Except.ok post
  | none => Except.error (Error.wrap "post: post not found: " (Error.base "mongo: no documents in result"))

/-- What a call of `Repo.Vote` leaves behind: the returned error, the value
behind the caller's `*Post`, the collection, and how often the transaction
callback was entered. -/
structure VoteOutcome where
  err : Option Error
  post : Post
  repo : Repo
  callbackRuns : Nat
deriving DecidableEq, Repr

/-- The transaction callback built inside `Repo.Vote`: mutate the post in
memory, recompute the aggregates, then `r.Update(ctx, post)`. -/
def voteCallback (r : Repo) (updateOneErr : Option Error) (post : Post) (newVote : Vote) :
    Option Error × Post × Repo :=
  let post1 := voteMutation post newVote
  match r.Update updateOneErr post1 with
  | (some err, r1) => (some (Error.wrap "post/repo: can't update vote " err), post1, r1)
  | (none, r1) => (none, post1, r1)

/-- Driver call `session.WithTransaction(ctx, callback)`: the loop that starts
a transaction, runs the callback and commits.  `env` is what the outside world
answers during the run of the callback that starts now, `later` what it answers
during the further runs the driver has time for before its 120 s timer fires.
When the callback returns an error, the driver returns it if the timer has
fired or the error has no label `TransientTransactionError`, and otherwise
runs the callback again, on the state the failed run left.  When the callback
returns nil the transaction is committed; `Repo.Vote` enlists no operation in
the transaction (`Update` is called with the outer `ctx`), so the commit sends
nothing and returns nil.  The result is the error, the state, and the number
of runs of the callback. -/
def WithTransaction {ε σ : Type} (callback : ε → σ → Option Error × σ) :
    ε → List ε → σ → Option Error × σ × Nat
  | env, [], s =>
    let res := callback env s
    (res.1, res.2, 1)
  | env, next :: later, s =>
    match callback env s with
    | (some err, s1) =>
      if err.hasLabel "TransientTransactionError" then
        let out := WithTransaction callback next later s1
        (out.1, out.2.1, out.2.2 + 1)
      else (some err, s1, 1)
    | (none, s1) => (none, s1, 1)

/-- One run of the callback of `Repo.Vote` as `WithTransaction` sees it: the
state is the value behind the caller's `*Post` and the collection, `uerr` the
error `UpdateOne` returns during this run. -/
def voteRun (newVote : Vote) (uerr : Option Error) (s : Post × Repo) :
    Option Error × (Post × Repo) :=
  let res := voteCallback s.2 uerr s.1 newVote
  (res.1, (res.2.1, res.2.2))

/-- Go `(*Repo).Vote(ctx, post, newVote)`.  `startSessionErr` is the error
returned by `StartSession`, `updateOneErr` the one returned by the `UpdateOne`
of the first run of the callback, `retryErrs` those returned by the `UpdateOne`
of the further runs the driver has time for.  The callback works on the
caller's `*Post` and on the collection. -/
def Repo.Vote (r : Repo) (startSessionErr updateOneErr : Option Error)
    (retryErrs : List (Option Error)) (post : Post) (newVote : Vote) : VoteOutcome :=
  match startSessionErr with
  | some err => { err := some err, post := post, repo := r, callbackRuns := 0 }
  | none =>
    match WithTransaction (voteRun newVote) updateOneErr retryErrs (post, r) with
    | (some err, (post1, r1), n) => { err := some err, post := post1, repo := r1, callbackRuns := n }
    | (none, (post1, r1), n) => { err := none, post := post1, repo := r1, callbackRuns := n }

/-! ## pkg/post/handlers.go: `PostHandler.vote` -/

/-- Progress of one `PostHandler.vote` request: before `GetById`, between
`GetById` and `Repo.Vote` (holding the decoded post), and after the response
(status code and, on success, the post written as JSON). -/
inductive VoteReq where
  | start (authUser : Option User) (postId : String) (score : VotingScore)
  | fetched (voter : User) (post : Post) (score : VotingScore)
  | done (status : Nat) (body : Option Post)
deriving DecidableEq, Repr

/-- One store round trip of `PostHandler.vote`, every driver call succeeding
unless the post is absent: from `start`, `GetAuthUser` and `GetById`; from
`fetched`, `Repo.Vote` and the response. -/
def VoteReq.step (r : Repo) : VoteReq → Repo × VoteReq
  | VoteReq.start none _ _ => (r, VoteReq.done 400 none)
  | VoteReq.start (some voter) postId score =>
    match r.GetById postId with
    | Except.error _ => (r, VoteReq.done 404 none)
    | Except.ok post => (r, VoteReq.fetched voter post score)
  | VoteReq.fetched voter post score =>
    let out := r.Vote none none [] post { UserId := voter.Id, Score := score }
    match out.err with
    | some _ => (out.repo, VoteReq.done 500 none)
    | none => (out.repo, VoteReq.done 200 (some out.post))
  | VoteReq.done status body => (r, VoteReq.done status body)

/-- Two `PostHandler.vote` requests served concurrently: the schedule lists
which request performs its next store round trip (`false` the first request,
`true` the second). -/
def runSchedule (r : Repo) (a b : VoteReq) : List Bool → Repo × VoteReq × VoteReq
  | [] => (r, a, b)
  | false :: sched => let (r1, a1) := a.step r; runSchedule r1 a1 b sched
  | true :: sched => let (r1, b1) := b.step r; runSchedule r1 a b1 sched

/-- Successive `Repo.Vote` transitions on one post, each starting from the post
the previous one produced. -/
def voteAll (post : Post) : List Vote → Post
  | [] => post
  | v :: vs => voteAll (voteMutation post v) vs

/-! ## Vocabulary of the specification -/

/-- Number of stored votes with score `+1`. -/
def upvoteCount (votes : List Vote) : Int := (votes.countP (fun v => v.Score = 1) : Nat)

/-- Number of stored votes with score `-1`. -/
def downvoteCount (votes : List Vote) : Int := (votes.countP (fun v => v.Score = -1) : Nat)

/-- The voter has an entry in the vote collection. -/
def hasVote (votes : List Vote) (userId : String) : Prop := ∃ v ∈ votes, v.UserId = userId

instance (votes : List Vote) (userId : String) : Decidable (hasVote votes userId) := by
  unfold hasVote; infer_instance

/-- At most one entry per `UserId`. -/
def uniqueVoters (votes : List Vote) : Prop := (votes.map Vote.UserId).Nodup

instance (votes : List Vote) : Decidable (uniqueVoters votes) := by
  unfold uniqueVoters; infer_instance

/-- The percentage of the specification's data model:
`round(upvoteCount / (upvoteCount + downvoteCount) * 100)` over the rationals,
and `0` without votes. -/
def roundedPercentage (votes : List Vote) : Int :=
  if upvoteCount votes + downvoteCount votes > 0 then
    round ((upvoteCount votes : ℚ) / ((upvoteCount votes : ℚ) + (downvoteCount votes : ℚ)) * 100)
  else 0

/-- A post with the given id and votes and nothing else. -/
def mkPost (id : String) (votes : List Vote) : Post :=
  { Author := none, Comments := [], Votes := votes, Id := id, Title := "", PostType := "text",
    Text := "", URL := "", Category := "", Views := 0, Score := 0, UpvotePercentage := 0,
    Created := 0 }

/-! ## pkg/common/common.go -/

/-- A JSON value written to a response body: a `common.Msg`, the token object
of `sendToken`, or a post. -/
inductive Payload where
  | msg (message : String)
  | token (token : String)
  | post (p : Post)
deriving DecidableEq, Repr

/-- The state of an `http.ResponseWriter`: the status code, fixed by the first
`WriteHeader` (or by the first `Write`, as 200), and the JSON values written to
the body. -/
structure ResponseWriter where
  status : Option Nat
  body : List Payload
deriving DecidableEq, Repr

/-- A response writer nothing has been written to. -/
def ResponseWriter.fresh : ResponseWriter := { status := none, body := [] }

/-- Go `w.WriteHeader(code)`: a second call does not change the status. -/
def ResponseWriter.WriteHeader (w : ResponseWriter) (code : Nat) : ResponseWriter :=
  match w.status with
  | some _ => w
  | none => { w with status := some code }

/-- Go `w.Write(data)`: sends status 200 first when no header was written. -/
def ResponseWriter.Write (w : ResponseWriter) (data : Payload) : ResponseWriter :=
  { status := some (w.status.getD 200), body := w.body ++ [data] }

/-- Go `common.WriteRespJSON(w, data)` for a value that marshals. -/
def WriteRespJSON (w : ResponseWriter) (data : Payload) : ResponseWriter :=
  w.Write data

/-- Go `common.WriteMsg(w, msg, code)`. -/
def WriteMsg (w : ResponseWriter) (msg : String) (code : Nat) : ResponseWriter :=
  WriteRespJSON (w.WriteHeader code) (Payload.msg msg)

/-- Go `common.HashPass(plainPassword, salt)`.  Strings are their bytes;
`IDKey plainPassword salt` stands for
`argon2.IDKey([]byte(plainPassword), []byte(salt), 1, 64*1024, 4, 32)`. -/
def HashPass (IDKey : List Nat → List Nat → List Nat) (plainPassword salt : List Nat) :
    List Nat :=
  salt ++ IDKey plainPassword salt

/-! ## pkg/user/repo.go -/

/-- What a Go call leaves: a returned value, or a run-time panic. -/
inductive Outcome (α : Type) where
  | returned (a : α)
  | panicked (msg : String)
deriving DecidableEq, Repr

/-- Go `user.UserRepo`: `rows` is the content of the table `users`. -/
structure UserRepo where
  rows : List User
deriving DecidableEq, Repr

/-- The row `QueryRow("SELECT ... FROM users where username=$1", uname)` yields:
the first row with that username. -/
def queryRowByUsername : List User → String → Option User
  | [], _ => none
  | u :: rest, uname => if u.Username = uname then some u else queryRowByUsername rest uname

/-- Capacity of the byte slice `Scan` stores in `u.Password`.  `database/sql`
copies the column bytes with `append` onto an empty slice: an empty value gets
no allocation, and a value that is not empty gets an allocation of a size
class, the smallest class being 8 bytes, whose bytes past the length are zero.
Past 8 bytes the capacity is given by its lower bound, the length, which is all
a slice expression up to index 8 depends on. -/
def scannedCap (len : Nat) : Nat :=
  if len = 0 then 0 else max len 8

/-- Go `(*UserRepo).GetByUsernameAndPass(uname, pass)`.  `queryErr` is an error
of the database; without a row `Scan` returns `sql.ErrNoRows`.  The slice
expression `u.Password[0:8]` reaches into the capacity of the scanned
password: it panics when the capacity is below 8, and otherwise yields the
first 8 bytes of the allocation, the password followed by zero bytes. -/
def UserRepo.GetByUsernameAndPass (IDKey : List Nat → List Nat → List Nat) (r : UserRepo)
    (queryErr : Option Error) (uname : String) (pass : List Nat) :
    Outcome (Except Error User) :=
  let scanned : Except Error User :=
    match queryErr with
    | some err => Except.error err
    | none =>
      match queryRowByUsername r.rows uname with
      | none => Except.error (Error.base "sql: no rows in result set")
      | some u => Except.ok u
  match scanned with
  | Except.error err =>
    Outcome.returned (Except.error (Error.wrap "user/repo: row scan failed: " err))
  | Except.ok u =>
    if scannedCap u.Password.length < 8 then
      Outcome.panicked "slice bounds out of range"
    else
      let backing :=
        u.Password ++ List.replicate (scannedCap u.Password.length - u.Password.length) 0
      let salt := backing.take 8
      if HashPass IDKey pass salt ≠ u.Password then
        Outcome.returned (Except.error (Error.base "user/repo: password is invalid"))
      else
        Outcome.returned (Except.ok u)

/-! ## pkg/user/api/handlers.go -/

/-- Go `api.HttpUser`; the password is the byte string of the JSON value. -/
structure HttpUser where
  Username : String
  Password : List Nat
deriving DecidableEq, Repr

/-- Go interface `api.UserRepo`: what each method returns for its arguments. -/
structure ApiUserRepo where
  UserExists : String → Bool
  GetByUsernameAndPass : String → List Nat → Except Error User
  Add : User → Except Error String

/-- Go interface `api.SessionManager`: what each method returns for its arguments. -/
structure ApiSessionManager where
  CreateToken : User → Except Error String
  CleanupUserSessions : String → Option Error

/-- Go `api.UserHandler`. -/
structure UserHandler where
  Repo : ApiUserRepo
  SessionManager : ApiSessionManager

/-- A call made by a handler of `api.UserHandler` on one of its two interfaces. -/
inductive UserCall where
  | UserExists (uname : String)
  | GetByUsernameAndPass (uname : String) (pass : List Nat)
  | Add (u : User)
  | CreateToken (u : User)
  | CleanupUserSessions (userId : String)
deriving DecidableEq, Repr

/-- Go `(*UserHandler).sendToken(w, user)`: the response and the calls made. -/
def UserHandler.sendToken (uh : UserHandler) (w : ResponseWriter) (user : User) :
    ResponseWriter × List UserCall :=
  match uh.SessionManager.CreateToken user with
  | Except.error _ =>
    (WriteMsg w "user authentication failed" 500, [UserCall.CreateToken user])
  | Except.ok token =>
    (WriteRespJSON w (Payload.token token), [UserCall.CreateToken user])

/-- Go `UserHandler.LogIn(w, r)`.  `body` is the request body decoded by
`ParseReqBody`, `none` when it does not parse.  The result is the response and
the calls made on the repository and the session manager, in order. -/
def UserHandler.LogIn (uh : UserHandler) (body : Option HttpUser) :
    ResponseWriter × List UserCall :=
  let w := ResponseWriter.fresh
  match body with
  | none => (WriteMsg w "bad request format" 400, [])
  | some httpUser =>
    let calls := [UserCall.GetByUsernameAndPass httpUser.Username httpUser.Password]
    match uh.Repo.GetByUsernameAndPass httpUser.Username httpUser.Password with
    | Except.error _ => (WriteMsg w "user not found" 404, calls)
    | Except.ok user =>
      let calls := calls ++ [UserCall.CleanupUserSessions user.Id]
      match uh.SessionManager.CleanupUserSessions user.Id with
      | some _ => (WriteMsg w "failed managing user sessions" 500, calls)
      | none =>
        let sent := uh.sendToken (w.WriteHeader 200) user
        (sent.1, calls ++ sent.2)

/-- Go `UserHandler.Register(w, r)`.  `body` is the decoded request body, `salt`
the bytes of `common.RandStringRunes(8)`. -/
def UserHandler.Register (IDKey : List Nat → List Nat → List Nat) (uh : UserHandler)
    (salt : List Nat) (body : Option HttpUser) : ResponseWriter × List UserCall :=
  let w := ResponseWriter.fresh
  match body with
  | none => (WriteMsg w "bad request format" 400, [])
  | some httpUser =>
    let calls := [UserCall.UserExists httpUser.Username]
    if uh.Repo.UserExists httpUser.Username then
      (WriteMsg w ("user \"" ++ httpUser.Username ++ "\" already exists") 409, calls)
    else
      let pass := HashPass IDKey httpUser.Password salt
      let user : User := { Username := httpUser.Username, Password := pass, Id := "" }
      let calls := calls ++ [UserCall.Add user]
      match uh.Repo.Add user with
      | Except.error _ => (WriteMsg w "can't add user" 500, calls)
      | Except.ok id =>
        let user := { user with Id := id }
        let sent := uh.sendToken (w.WriteHeader 201) user
        (sent.1, calls ++ sent.2)

/-! ## strconv.ParseInt, as `pkg/sessions/manager.go` calls it -/

/-- The two errors of `strconv`: `ErrSyntax` and `ErrRange`. -/
inductive NumError where
  | ErrSyntax
  | ErrRange
deriving DecidableEq, Repr

/-- Constant `maxUint64` of `strconv`. -/
def maxUint64 : Nat := 2 ^ 64 - 1

/-- The loop of `strconv.ParseUint(s, 10, 64)` over the bytes not yet read, `n`
being the value read so far (a `uint64`).  The loop runs over characters here:
a character outside ASCII is not a digit, and neither is any of its bytes. -/
def parseUintLoop : List Char → Nat → Nat × Option NumError
  | [], n => (n, none)
  | c :: cs, n =>
    if '0' ≤ c ∧ c ≤ '9' then
      let d := c.toNat - '0'.toNat
      if n ≥ maxUint64 / 10 + 1 then (maxUint64, some NumError.ErrRange)
      else
        let n10 := n * 10
        let n1 := (n10 + d) % 2 ^ 64
        if n1 < n10 ∨ n1 > maxUint64 then (maxUint64, some NumError.ErrRange)
        else parseUintLoop cs n1
    else (0, some NumError.ErrSyntax)

/-- Go `strconv.ParseUint(s, 10, 64)`: the value and the error. -/
def ParseUint (s : List Char) : Nat × Option NumError :=
  if s = [] then (0, some NumError.ErrSyntax) else parseUintLoop s 0

/-- Go `strconv.ParseInt(s, 10, 64)`: the value and the error. -/
def ParseInt (s : String) : Int × Option NumError :=
  match s.toList with
  | [] => (0, some NumError.ErrSyntax)
  | c :: rest =>
    let neg : Bool := c = '-'
    let digits := if c = '+' ∨ c = '-' then rest else c :: rest
    match ParseUint digits with
    | (_, some NumError.ErrSyntax) => (0, some NumError.ErrSyntax)
    | (un, _) =>
      if neg = false ∧ un ≥ 2 ^ 63 then (2 ^ 63 - 1, some NumError.ErrRange)
      else if neg = true ∧ un > 2 ^ 63 then (-(2 ^ 63), some NumError.ErrRange)
      else (if neg then -(un : Int) else (un : Int), none)

/-- The value of an `int64` expression whose mathematical result is `x`. -/
def wrapInt64 (x : Int) : Int := (x + 2 ^ 63) % 2 ^ 64 - 2 ^ 63

/-! ## pkg/sessions/manager.go -/

/-- A command sent with `sm.redis.Do`. -/
inductive RedisCmd where
  | HGETALL (key : String)
  | HGET (key field : String)
  | HSET (key field value : String)
  | HDEL (key field : String)
deriving DecidableEq, Repr

/-- The hashes of the Redis server: entries `(key, field, value)`. -/
abbrev RedisDb := List (String × String × String)

/-- Reply of `HGET key field`: the value of the first entry of that key and field. -/
def RedisDb.hget : RedisDb → String → String → Option String
  | [], _, _ => none
  | (k, f, v) :: rest, key, field =>
    if k = key ∧ f = field then some v else RedisDb.hget rest key field

/-- Reply of `HGETALL key`: the fields of the hash with their values. -/
def RedisDb.hgetall (db : RedisDb) (key : String) : List (String × String) :=
  (db.filter (fun e => decide (e.1 = key))).map (fun e => e.2)

/-- Effect of `HDEL key field`. -/
def RedisDb.hdel (db : RedisDb) (key field : String) : RedisDb :=
  db.filter (fun e => !decide (e.1 = key ∧ e.2.1 = field))

/-- Effect of `HSET key field value`. -/
def RedisDb.hset (db : RedisDb) (key field value : String) : RedisDb :=
  RedisDb.hdel db key field ++ [(key, field, value)]

/-- The connection `sm.redis`: the hashes of the server and the commands sent so far. -/
structure RedisConn where
  db : RedisDb
  sent : List RedisCmd
deriving DecidableEq, Repr

/-- Go `sm.redis.Do(cmd, args...)`, as far as the server is concerned: the
command is recorded; it is executed unless `Do` fails (`err`). -/
def RedisConn.Do (c : RedisConn) (err : Option Error) (cmd : RedisCmd) : RedisConn :=
  { db :=
      match err, cmd with
      | none, RedisCmd.HSET key field value => c.db.hset key field value
      | none, RedisCmd.HDEL key field => c.db.hdel key field
      | _, _ => c.db
    sent := c.sent ++ [cmd] }

/-- Go `sessions.SessionManager`. -/
structure SessionManager where
  secret : List Nat
  redis : RedisConn
deriving DecidableEq, Repr

/-- Go `(*SessionManager).AddToRedis(userId, sessionId, exp)`: the `int64` is
sent in decimal.  `hsetErr` is the error of `Do`; it is formatted with `%v`, so
the error returned carries its message and does not wrap it. -/
def SessionManager.AddToRedis (sm : SessionManager) (hsetErr : Option Error)
    (userId sessionId : String) (exp : Int) : Option Error × SessionManager :=
  let conn := sm.redis.Do hsetErr (RedisCmd.HSET userId sessionId (toString exp))
  match hsetErr with
  | some err => (some (Error.base ("session/manager: failed HSET to Redis: " ++ err.message)),
      { sm with redis := conn })
  | none => (none, { sm with redis := conn })

/-- The `for sessId, exp := range sessions` loop of `CleanupUserSessions` over
the entries not yet visited. -/
def cleanupLoop (userId : String) (nowTs : Int) : List (String × String) → RedisConn → RedisConn
  | [], conn => conn
  | (sessId, exp) :: rest, conn =>
    let expTs := (ParseInt exp).1
    if nowTs > expTs then
      cleanupLoop userId nowTs rest (conn.Do none (RedisCmd.HDEL userId sessId))
    else
      cleanupLoop userId nowTs rest conn

/-- Go `(*SessionManager).CleanupUserSessions(userId)`.  `hgetallErr` is the
error of the `HGETALL`, `nowTs` is `time.Now().Unix()`. -/
def SessionManager.CleanupUserSessions (sm : SessionManager) (hgetallErr : Option Error)
    (nowTs : Int) (userId : String) : Option Error × SessionManager :=
  let conn := sm.redis.Do hgetallErr (RedisCmd.HGETALL userId)
  match hgetallErr with
  | some err => (some err, { sm with redis := conn })
  | none =>
    let sessions := conn.db.hgetall userId
    (none, { sm with redis := cleanupLoop userId nowTs sessions conn })

/-- Go `(*SessionManager).CheckRedis(userId, sessionId)`.  `hgetErr` and
`hsetErr` are the errors of the two `Do` calls, `nowTs` is the first
`time.Now().Unix()` and `laterTs` the Unix time of the second `time.Now()`,
read when the expiry is prolonged. -/
def SessionManager.CheckRedis (sm : SessionManager) (hgetErr hsetErr : Option Error)
    (nowTs laterTs : Int) (userId sessionId : String) :
    (Bool × Option Error) × SessionManager :=
  let conn := sm.redis.Do hgetErr (RedisCmd.HGET userId sessionId)
  let sm1 := { sm with redis := conn }
  let reply : Except Error String :=
    match hgetErr with
    | some err => Except.error err
    | none =>
      match conn.db.hget userId sessionId with
      | none => Except.error (Error.base "redigo: nil returned")
      | some data => Except.ok data
  match reply with
  | Except.error err => ((false, some err), sm1)
  | Except.ok expirationData =>
    let expiredTs := (ParseInt expirationData).1
    if nowTs > expiredTs then
      ((false, some (Error.base "session has beed expired")), sm1)
    else if wrapInt64 (expiredTs - nowTs) < 86400 then
      let newExpDate := laterTs + 90 * 24 * 3600
      match sm1.AddToRedis hsetErr userId sessionId newExpDate with
      | (some err, sm2) => ((false, some err), sm2)
      | (none, sm2) => ((true, none), sm2)
    else
      ((true, none), sm1)

/-- Go `sessions.GetAuthUser(ctx)`: `ctx` is the value stored in the context
under `SessionKey`, `none` when there is none or it is a nil pointer. -/
def GetAuthUser (ctx : Option User) : Except Error User :=
  match ctx with
  | none => Except.error (Error.base "sessions: no session found")
  | some user => Except.ok user

/-! ## pkg/middleware/auth.go -/

/-- Go interface `middleware.IUserRepo`: the `(*user.User, error)` pair `GetById` returns. -/
structure IUserRepo where
  GetById : String → Option User × Option Error

/-- Go interface `middleware.ISessionManager`. -/
structure ISessionManager where
  UserFromToken : String → Except Error User

/-- Go `middleware.Auth`. -/
structure Auth where
  UserRepo : IUserRepo
  SessionManager : ISessionManager

/-- What the handler returned by `Auth.Middleware` does with a request: it runs
`next.ServeHTTP` with a context holding `ctx` under `SessionKey`, or it writes a
response itself and `next` does not run. -/
inductive MiddlewareOut where
  | next (ctx : Option User)
  | responded (w : ResponseWriter)
deriving DecidableEq, Repr

/-- Go `Auth.Middleware(next)` applied to a request with the given
`Authorization` header, whose context has no value under `SessionKey`. -/
def Auth.Middleware (auth : Auth) (authHeader : String) : MiddlewareOut :=
  if authHeader = "" then MiddlewareOut.next none
  else
    match auth.SessionManager.UserFromToken authHeader with
    | Except.error _ => MiddlewareOut.next none
    | Except.ok userFromToken =>
      match auth.UserRepo.GetById userFromToken.Id with
      | (_, some _) =>
        MiddlewareOut.responded (WriteMsg ResponseWriter.fresh "user not found" 400)
      | (user, none) => MiddlewareOut.next user

/-! ## pkg/post/repo.go: `Add`, `Delete`, `AddComment` -/

/-- Go `(*Repo).Add(ctx, p)`.  `insertOneErr` is the error returned by the
driver's `InsertOne`; a successful `InsertOne` stores the document.  The result
is the `(PostId, error)` pair and the collection. -/
def Repo.Add (r : Repo) (insertOneErr : Option Error) (p : Post) :
    (String × Option Error) × Repo :=
  match insertOneErr with
  | some err => (("", some (Error.wrap "post/repo: failed inserting a post: " err)), r)
  | none => ((p.Id, none), { posts := r.posts ++ [p] })

/-- Driver call `DeleteOne(ctx, bson.M{"id": id})` when it succeeds: the first
document whose `id` matches is removed. -/
def deleteOne : List Post → String → List Post
  | [], _ => []
  | d :: ds, id => if d.Id = id then ds else d :: deleteOne ds id

/-- Go `(*Repo).Delete(ctx, id)`.  `deleteOneErr` is the error returned by the
driver's `DeleteOne`; a failed `DeleteOne` removes nothing. -/
def Repo.Delete (r : Repo) (deleteOneErr : Option Error) (id : String) : Option Error × Repo :=
  match deleteOneErr with
  | some err => (some (Error.wrap "post/repo: failed deleting post: " err), r)
  | none => (none, { posts := deleteOne r.posts id })

/-- Driver call `UpdateOne` with `$push` of a comment, when it succeeds: the
comment is appended to the comments of the first document whose `id` matches. -/
def pushComment : List Post → String → Comment → List Post
  | [], _, _ => []
  | d :: ds, id, cmt =>
    if d.Id = id then { d with Comments := d.Comments ++ [cmt] } :: ds
    else d :: pushComment ds id cmt

/-- Go `(*Repo).AddComment(ctx, postId, commenter, commentText)`.  `cmtId` is
`common.RandStringRunes(12)`, `now` is `time.Now()`, `updateOneErr` the error
returned by `UpdateOne`. -/
def Repo.AddComment (r : Repo) (updateOneErr : Option Error) (cmtId : String) (now : Int)
    (postId : String) (commenter : User) (commentText : String) : Except Error Post × Repo :=
  let cmt : Comment :=
    { Id := cmtId, Author := some commenter, Created := now, Body := commentText }
  match updateOneErr with
  | some err => (Except.error err, r)
  | none =>
    let r1 : Repo := { posts := pushComment r.posts postId cmt }
    (r1.GetById postId, r1)

/-! ## pkg/post/handlers.go: the handlers that require identity -/

/-- A call made by a handler on its `IPostRepo`. -/
inductive RepoCall where
  | GetById (id : String)
  | Add (p : Post)
  | Vote (p : Post) (v : Vote)
  | Delete (id : String)
  | AddComment (postId : String) (commenter : User) (commentText : String)
deriving DecidableEq, Repr

/-- The repository call can change stored data. -/
def RepoCall.mutates : RepoCall → Bool
  | RepoCall.GetById _ => false
  | _ => true

/-- What a handler of `PostHandler` leaves: the response, the collection, the
repository calls it made, and whether it panicked. -/
structure HandlerOut where
  w : ResponseWriter
  repo : Repo
  calls : List RepoCall
  panicked : Bool
deriving DecidableEq, Repr

/-- Go `(*PostHandler).Add(w, r)`.  `ctx` is the value under `SessionKey` in the
request context, `body` the request body decoded into a `Post` (`none` when it
does not parse), `now` is `time.Now()`, `newId` is `RandStringRunes(12)`. -/
def PostHandler.Add (r : Repo) (insertOneErr : Option Error) (ctx : Option User)
    (body : Option Post) (now : Int) (newId : String) : HandlerOut :=
  let w := ResponseWriter.fresh
  match GetAuthUser ctx with
  | Except.error _ =>
    { w := WriteMsg w "user not found" 400, repo := r, calls := [], panicked := false }
  | Except.ok author =>
    match body with
    | none =>
      { w := WriteMsg w "can't parse post" 400, repo := r, calls := [], panicked := false }
    | some decoded =>
      let post : Post :=
        { decoded with
          Created := now, Id := newId, Author := some author, Votes := [], Comments := [] }
      match r.Add insertOneErr post with
      | ((_, some _), r1) =>
        { w := WriteMsg w "failed adding post" 500, repo := r1,
          calls := [RepoCall.Add post], panicked := false }
      | ((_, none), r1) =>
        { w := WriteRespJSON (w.WriteHeader 201) (Payload.post post), repo := r1,
          calls := [RepoCall.Add post], panicked := false }

/-- Go `(*PostHandler).Delete(w, r)`.  `postId` is the path variable `post_id`;
`post.Author.Id` panics on a post without author. -/
def PostHandler.Delete (r : Repo) (deleteOneErr : Option Error) (ctx : Option User)
    (postId : String) : HandlerOut :=
  let w := ResponseWriter.fresh
  match GetAuthUser ctx with
  | Except.error _ =>
    { w := WriteMsg w "user not found" 400, repo := r, calls := [], panicked := false }
  | Except.ok authUser =>
    match r.GetById postId with
    | Except.error _ =>
      { w := WriteMsg w "post not found" 500, repo := r,
        calls := [RepoCall.GetById postId], panicked := false }
    | Except.ok post =>
      match post.Author with
      | none =>
        { w := w, repo := r, calls := [RepoCall.GetById postId], panicked := true }
      | some author =>
        if author.Id ≠ authUser.Id then
          { w := WriteMsg w "only the author can remove the post" 500, repo := r,
            calls := [RepoCall.GetById postId], panicked := false }
        else
          match r.Delete deleteOneErr postId with
          | (some _, r1) =>
            { w := WriteMsg w "removing post failed" 500, repo := r1,
              calls := [RepoCall.GetById postId, RepoCall.Delete postId], panicked := false }
          | (none, r1) =>
            { w := WriteMsg w "success" 200, repo := r1,
              calls := [RepoCall.GetById postId, RepoCall.Delete postId], panicked := false }

/-- Go `(*PostHandler).AddComment(w, r)`.  `body` is the field `Comment` of the
decoded request body (`none` when the body does not parse), `cmtId` and `now`
are the random id and the time `Repo.AddComment` draws. -/
def PostHandler.AddComment (r : Repo) (updateOneErr : Option Error) (ctx : Option User)
    (postId : String) (body : Option String) (cmtId : String) (now : Int) : HandlerOut :=
  let w := ResponseWriter.fresh
  match body with
  | none =>
    { w := WriteMsg w "failed parsing comment body" 500, repo := r, calls := [],
      panicked := false }
  | some commentText =>
    match GetAuthUser ctx with
    | Except.error _ =>
      { w := WriteMsg w "not authorized" 500, repo := r, calls := [], panicked := false }
    | Except.ok commenter =>
      match r.AddComment updateOneErr cmtId now postId commenter commentText with
      | (Except.error _, r1) =>
        { w := WriteMsg w "post not found" 404, repo := r1,
          calls := [RepoCall.AddComment postId commenter commentText], panicked := false }
      | (Except.ok postWithComment, r1) =>
        { w := WriteRespJSON (w.WriteHeader 201) (Payload.post postWithComment), repo := r1,
          calls := [RepoCall.AddComment postId commenter commentText], panicked := false }

/-- Go `(*PostHandler).vote(w, r, score)`; `startSessionErr`, `updateOneErr` and
`retryErrs` are the driver's answers inside `Repo.Vote`. -/
def PostHandler.vote (r : Repo) (startSessionErr updateOneErr : Option Error)
    (retryErrs : List (Option Error)) (ctx : Option User) (postId : String)
    (score : VotingScore) : HandlerOut :=
  let w := ResponseWriter.fresh
  match GetAuthUser ctx with
  | Except.error _ =>
    { w := WriteMsg w "not authorized" 400, repo := r, calls := [], panicked := false }
  | Except.ok voter =>
    match r.GetById postId with
    | Except.error _ =>
      { w := WriteMsg w "post not found" 404, repo := r,
        calls := [RepoCall.GetById postId], panicked := false }
    | Except.ok post =>
      let v : Vote := { UserId := voter.Id, Score := score }
      let out := r.Vote startSessionErr updateOneErr retryErrs post v
      match out.err with
      | some _ =>
        { w := WriteMsg w "voting failed" 500, repo := out.repo,
          calls := [RepoCall.GetById postId, RepoCall.Vote post v], panicked := false }
      | none =>
        { w := WriteRespJSON (w.WriteHeader 200) (Payload.post out.post), repo := out.repo,
          calls := [RepoCall.GetById postId, RepoCall.Vote post v], panicked := false }

/-- Go `(*PostHandler).Upvote(w, r)`. -/
def PostHandler.Upvote (r : Repo) (startSessionErr updateOneErr : Option Error)
    (retryErrs : List (Option Error)) (ctx : Option User) (postId : String) : HandlerOut :=
  PostHandler.vote r startSessionErr updateOneErr retryErrs ctx postId ScoreUp

/-- Go `(*PostHandler).Unvote(w, r)`. -/
def PostHandler.Unvote (r : Repo) (startSessionErr updateOneErr : Option Error)
    (retryErrs : List (Option Error)) (ctx : Option User) (postId : String) : HandlerOut :=
  PostHandler.vote r startSessionErr updateOneErr retryErrs ctx postId ScoreDiscard

/-- Go `(*PostHandler).Downvote(w, r)`. -/
def PostHandler.Downvote (r : Repo) (startSessionErr updateOneErr : Option Error)
    (retryErrs : List (Option Error)) (ctx : Option User) (postId : String) : HandlerOut :=
  PostHandler.vote r startSessionErr updateOneErr retryErrs ctx postId ScoreDown

/-! ## Sample data for the instances -/

/-- A key derivation standing in for `argon2.IDKey` in the instances: password
followed by salt. -/
def sampleKey (plainPassword salt : List Nat) : List Nat := plainPassword ++ salt

/-- A stored user whose password is `HashPass` of the bytes `sdf` with salt `1..8`. -/
def pike : User :=
  { Username := "pike", Id := "1",
    Password := [1, 2, 3, 4, 5, 6, 7, 8, 115, 100, 102, 1, 2, 3, 4, 5, 6, 7, 8] }

/-- A user handler whose repository knows `pike` with the password bytes `sdf`
and whose session manager hands out the token `tok`. -/
def sampleUserHandler : UserHandler :=
  { Repo :=
      { UserExists := fun uname => decide (uname = "pike")
        GetByUsernameAndPass := fun uname pass =>
          if uname = "pike" ∧ pass = [115, 100, 102] then Except.ok pike
          else Except.error (Error.base "user/repo: password is invalid")
        Add := fun _ => Except.ok "2" }
    SessionManager :=
      { CreateToken := fun _ => Except.ok "tok"
        CleanupUserSessions := fun _ => none } }

/-- A session manager whose Redis holds two sessions of user `1`, one expiring
at 1000 and one at 500000, and a session of user `2` expiring at 10. -/
def sampleSessions : SessionManager :=
  { secret := [],
    redis := { db := [("1", "sA", "1000"), ("1", "sB", "500000"), ("2", "sC", "10")], sent := [] } }

/-- A collection with one post, written by `pike`. -/
def sampleRepo : Repo :=
  { posts := [{ mkPost "p1" [] with Author := some pike }] }

/-- The user `rob`, who wrote no post. -/
def rob : User := { Username := "rob", Id := "2", Password := [] }

/-- A middleware whose session manager accepts the header `Bearer good` for
`pike` and `Bearer gone` for a user the repository does not know. -/
def sampleAuth : Auth :=
  { UserRepo :=
      { GetById := fun uid =>
          if uid = "1" then (some pike, none)
          else (some { Username := "", Id := "", Password := [] },
                some (Error.wrap "user/repo: could not scan row: "
                  (Error.base "sql: no rows in result set"))) }
    SessionManager :=
      { UserFromToken := fun authHeader =>
          if authHeader = "Bearer good" then Except.ok { pike with Password := [] }
          else if authHeader = "Bearer gone" then
            Except.ok { Username := "gone", Id := "9", Password := [] }
          else Except.error (Error.base "sessions: token is not valid") } }

/-! ## pkg/user/repo.go: `Add`; pkg/common/common.go: `RandStringRunes` -/

/-- Go `(*UserRepo).Add(u)`.  `execErr` is the error of `db.Exec` of the
`INSERT`; `lastInsertId` and `lastIdErr` are what `result.LastInsertId()`
returns, the id being the one the store gave the new row.  The result is the
`(string, error)` pair and the table. -/
def UserRepo.Add (r : UserRepo) (execErr : Option Error) (lastInsertId : Int)
    (lastIdErr : Option Error) (u : User) : (String × Option Error) × UserRepo :=
  match execErr with
  | some err => (("", some err), r)
  | none =>
    let r1 : UserRepo := { rows := r.rows ++ [{ u with Id := toString lastInsertId }] }
    match lastIdErr with
    | some err => (("", some (Error.wrap "user/repo: user wasn't added: " err)), r1)
    | none =>
      if lastInsertId = 0 then
        (("", some (Error.base "user/repo: user wasn't added, LastInsertId is 0")), r1)
      else
        ((toString lastInsertId, none), r1)

/-- Variable `letterRunes` of `common`: the 52 ASCII letters, as bytes. -/
def letterRunes : List Nat :=
  "abcdefghijklmnopqrstuvwxyzABCDEFGHIJKLMNOPQRSTUVWXYZ".toList.map Char.toNat

/-- Go `common.RandStringRunes(n)`, as the bytes of the string: `intn i` is the
value `rand.Intn(len(letterRunes))` returns at index `i`. -/
def RandStringRunes (n : Nat) (intn : Nat → Nat) : List Nat :=
  (List.range n).map (fun i => letterRunes.getD (intn i % letterRunes.length) 0)

/-! ## pkg/post/repo.go: `GetCategoryPosts`, `GetUserPosts` -/

/-- Driver call `cursor.All(ctx, &results)`: on success the slice behind the
pointer is resliced to the documents read, so a nil slice stays nil when the
cursor yields nothing.  A Go slice is `none` when nil. -/
def cursorAll (yields : List Post) (allErr : Option Error) (results : Option (List Post)) :
    Option Error × Option (List Post) :=
  match allErr with
  | some err => (some err, results)
  | none =>
    match results, yields with
    | none, [] => (none, none)
    | _, docs => (none, some docs)

/-- Go `(*Repo).GetCategoryPosts(ctx, category)`.  `findErr` and `allErr` are
the errors of `Find` and of `cursor.All`; the cursor yields the documents whose
`category` matches, in the order of the collection. -/
def Repo.GetCategoryPosts (r : Repo) (findErr allErr : Option Error) (category : String) :
    Option (List Post) × Option Error :=
  match findErr with
  | some err => (none, some (Error.wrap "post/repo: failed finding posts: " err))
  | none =>
    let cursor := r.posts.filter (fun p => decide (p.Category = category))
    let categoryPosts : Option (List Post) := some []
    match cursorAll cursor allErr categoryPosts with
    | (some err, _) => (none, some (Error.wrap "post/repo: failed geting posts from cursor: " err))
    | (none, categoryPosts) => (categoryPosts, none)

/-- Go `(*Repo).GetUserPosts(ctx, username)`; the cursor yields the documents
whose `author.username` matches. -/
def Repo.GetUserPosts (r : Repo) (findErr allErr : Option Error) (username : String) :
    Option (List Post) × Option Error :=
  let userPosts : Option (List Post) := some []
  match findErr with
  | some err => (none, some (Error.wrap "post/repo: failed finding posts: " err))
  | none =>
    let cursor :=
      r.posts.filter (fun p => decide (p.Author.map User.Username = some username))
    match cursorAll cursor allErr userPosts with
    | (some err, _) => (none, some (Error.wrap "post/repo: failed geting posts from cursor: " err))
    | (none, userPosts) => (userPosts, none)

/-- A request body for `PostHandler.Add` that sets `score`, `upvotePercentage`
and `votes`. -/
def boastfulBody : Post :=
  { mkPost "" [{ UserId := "x", Score := 1 }] with
    Title := "t", Text := "x", Category := "music", Score := 5, UpvotePercentage := 77 }

/-- A key derivation of 32 bytes standing in for `argon2.IDKey` in the instances. -/
def zeroKey (_plainPassword _salt : List Nat) : List Nat := List.replicate 32 0

end Crud

namespace Crud

/-! ## Auxiliary facts about the loops -/

theorem getUserVoteLoop_snd (userId : String) (votes : List Vote) :
    (getUserVoteLoop userId votes).2 = true ↔ hasVote votes userId := by
  induction votes with
  | nil => simp [getUserVoteLoop, hasVote]
  | cons v rest ih =>
    unfold getUserVoteLoop
    by_cases h : v.UserId = userId
    · simp [h, hasVote]
    · simp only [h, if_false, ih]
      simp [hasVote, h]

theorem hasVote_split {votes : List Vote} {userId : String} (h : hasVote votes userId) :
    ∃ mid v suf, votes = mid ++ v :: suf ∧ v.UserId = userId ∧ ∀ x ∈ mid, x.UserId ≠ userId := by
  induction votes with
  | nil => simp [hasVote] at h
  | cons w rest ih =>
    by_cases hw : w.UserId = userId
    · exact ⟨[], w, rest, rfl, hw, by simp⟩
    · have hr : hasVote rest userId := by
        obtain ⟨x, hx, hxu⟩ := h
        rcases List.mem_cons.mp hx with rfl | hx
        · exact absurd hxu hw
        · exact ⟨x, hx, hxu⟩
      obtain ⟨mid, v, suf, e, hv, hm⟩ := ih hr
      refine ⟨w :: mid, v, suf, by simp [e], hv, ?_⟩
      intro x hx
      rcases List.mem_cons.mp hx with rfl | hx
      · exact hw
      · exact hm x hx

theorem take_set_self (l : List Vote) (n : Nat) (a : Vote) : (l.set n a).take n = l.take n := by
  induction l generalizing n with
  | nil => simp
  | cons x xs ih =>
    cases n with
    | zero => simp
    | succ k => simp [ih]

theorem removeAt_append (pre suf : List Vote) (v : Vote) :
    removeAt (pre ++ v :: suf) pre.length
      = pre ++ ((v :: suf).getLast (List.cons_ne_nil v suf) :: suf).dropLast := by
  have hl : (pre ++ v :: suf).getLast? = some ((v :: suf).getLast (List.cons_ne_nil v suf)) := by
    rw [List.getLast?_append_of_ne_nil _ (List.cons_ne_nil v suf), List.getLast?_eq_getLast]
  unfold removeAt
  rw [hl]
  have hset : (pre ++ v :: suf).set pre.length ((v :: suf).getLast (List.cons_ne_nil v suf))
      = pre ++ (v :: suf).getLast (List.cons_ne_nil v suf) :: suf := by
    simp [List.set_append]
  have hlen : (pre ++ v :: suf).length - 1 = pre.length + suf.length := by simp
  simp only [hset]
  rw [take_set_self, ← List.dropLast_append_cons, List.dropLast_eq_take]
  simp

theorem removeVoteLoop_no_match (votes : List Vote) (userId : String) (rest : List Vote)
    (idx : Nat) (h : ∀ x ∈ rest, x.UserId ≠ userId) :
    removeVoteLoop votes userId rest idx = votes := by
  induction rest generalizing idx with
  | nil => rfl
  | cons w ws ih =>
    have hw : w.UserId ≠ userId := h w (List.mem_cons_self w ws)
    simp only [removeVoteLoop, hw, if_false]
    exact ih (idx + 1) (fun x hx => h x (List.mem_cons_of_mem w hx))

theorem removeVoteLoop_first (votes : List Vote) (userId : String) (mid suf : List Vote)
    (v : Vote) (idx : Nat) (hm : ∀ x ∈ mid, x.UserId ≠ userId) (hv : v.UserId = userId) :
    removeVoteLoop votes userId (mid ++ v :: suf) idx = removeAt votes (idx + mid.length) := by
  induction mid generalizing idx with
  | nil => simp [removeVoteLoop, hv]
  | cons w ws ih =>
    have hw : w.UserId ≠ userId := hm w (List.mem_cons_self w ws)
    have e : removeVoteLoop votes userId ((w :: ws) ++ v :: suf) idx
        = removeVoteLoop votes userId (ws ++ v :: suf) (idx + 1) := by
      simp only [List.cons_append, removeVoteLoop, hw, if_false]
      rfl
    rw [e, ih (idx + 1) (fun x hx => hm x (List.mem_cons_of_mem w hx))]
    congr 1
    simp only [List.length_cons]
    omega

theorem removeVoteLoop_split (userId : String) (mid suf : List Vote) (v : Vote)
    (hm : ∀ x ∈ mid, x.UserId ≠ userId) (hv : v.UserId = userId) :
    removeVoteLoop (mid ++ v :: suf) userId (mid ++ v :: suf) 0
      = mid ++ ((v :: suf).getLast (List.cons_ne_nil v suf) :: suf).dropLast := by
  rw [removeVoteLoop_first _ _ mid suf v 0 hm hv, Nat.zero_add, removeAt_append]

theorem moved_last_perm (v : Vote) (suf : List Vote) :
    (((v :: suf).getLast (List.cons_ne_nil v suf)) :: suf).dropLast.Perm suf := by
  cases suf with
  | nil => simp
  | cons s ss =>
    rw [List.getLast_cons (List.cons_ne_nil s ss), List.dropLast_cons_of_ne_nil (List.cons_ne_nil s ss)]
    have h := List.dropLast_append_getLast (List.cons_ne_nil s ss)
    conv_rhs => rw [← h]
    exact (List.perm_append_singleton _ _).symm

theorem updatePercentage_votes (post : Post) : (updatePercentage post).Votes = post.Votes := rfl

theorem voteMutation_votes_remove (post : Post) (newVote : Vote)
    (h : hasVote post.Votes newVote.UserId) :
    (voteMutation post newVote).Votes
      = removeVoteLoop post.Votes newVote.UserId post.Votes 0 := by
  have hb : (getUserVoteFromPost post newVote.UserId).2 = true :=
    (getUserVoteLoop_snd _ _).mpr h
  simp [voteMutation, hb, updatePercentage_votes, removeVote]

theorem voteMutation_votes_insert (post : Post) (newVote : Vote)
    (h : ¬ hasVote post.Votes newVote.UserId) (hs : newVote.Score ≠ 0) :
    (voteMutation post newVote).Votes = post.Votes ++ [newVote] := by
  have hb : (getUserVoteFromPost post newVote.UserId).2 = false := by
    have := (getUserVoteLoop_snd newVote.UserId post.Votes).not.mpr h
    simpa [getUserVoteFromPost] using this
  simp [voteMutation, hb, updatePercentage_votes, ScoreDiscard, hs]

theorem voteMutation_votes_noop (post : Post) (newVote : Vote)
    (h : ¬ hasVote post.Votes newVote.UserId) (hs : newVote.Score = 0) :
    (voteMutation post newVote).Votes = post.Votes := by
  have hb : (getUserVoteFromPost post newVote.UserId).2 = false := by
    have := (getUserVoteLoop_snd newVote.UserId post.Votes).not.mpr h
    simpa [getUserVoteFromPost] using this
  have hn : ∀ x ∈ post.Votes, x.UserId ≠ newVote.UserId := fun x hx hxu => h ⟨x, hx, hxu⟩
  simp [voteMutation, hb, updatePercentage_votes, ScoreDiscard, hs, removeVote,
    removeVoteLoop_no_match _ _ _ _ hn]

theorem voteMutation_insert_then_vote (post : Post) (userId : String) (s s2 : VotingScore)
    (h : ¬ hasVote post.Votes userId) (hs : s ≠ 0) :
    (voteMutation (voteMutation post { UserId := userId, Score := s })
      { UserId := userId, Score := s2 }).Votes = post.Votes := by
  have h1 : (voteMutation post { UserId := userId, Score := s }).Votes
      = post.Votes ++ [{ UserId := userId, Score := s }] :=
    voteMutation_votes_insert post { UserId := userId, Score := s } h hs
  have hn : ∀ x ∈ post.Votes, x.UserId ≠ userId := fun x hx hxu => h ⟨x, hx, hxu⟩
  have h2 : hasVote (voteMutation post { UserId := userId, Score := s }).Votes userId := by
    rw [h1]
    exact ⟨{ UserId := userId, Score := s }, by simp, rfl⟩
  rw [voteMutation_votes_remove _ { UserId := userId, Score := s2 } h2, h1]
  simp only []
  rw [removeVoteLoop_split userId post.Votes [] { UserId := userId, Score := s } hn rfl]
  simp

theorem countVotes_eq (votes : List Vote) (a b : Int) :
    countVotes votes (a, b) = (a + upvoteCount votes, b + downvoteCount votes) := by
  induction votes generalizing a b with
  | nil => simp [countVotes, upvoteCount, downvoteCount]
  | cons v rest ih =>
    unfold countVotes
    by_cases h1 : v.Score = 1
    · have hd : ¬ v.Score = -1 := by rw [h1]; decide
      simp only [h1, if_true, ih]
      simp [upvoteCount, downvoteCount, h1, List.countP_cons]
      omega
    · by_cases h2 : v.Score = -1
      · simp only [h1, h2, if_true, if_false, ih]
        simp [upvoteCount, downvoteCount, h2, List.countP_cons]
        omega
      · simp only [h1, h2, if_false, ih]
        simp [upvoteCount, downvoteCount, h1, h2, List.countP_cons]

theorem updatePercentage_score (post : Post) :
    (updatePercentage post).Score = upvoteCount post.Votes - downvoteCount post.Votes := by
  unfold updatePercentage
  rw [countVotes_eq]
  simp

theorem updatePercentage_pct (post : Post) :
    (updatePercentage post).UpvotePercentage
      = if upvoteCount post.Votes + downvoteCount post.Votes > 0 then
          Int.tdiv (upvoteCount post.Votes) (upvoteCount post.Votes + downvoteCount post.Votes) * 100
        else 0 := by
  unfold updatePercentage
  rw [countVotes_eq]
  simp

theorem voteMutation_eq_updatePercentage (post : Post) (newVote : Vote) :
    ∃ q : Post, voteMutation post newVote = updatePercentage q := ⟨_, rfl⟩

theorem voteMutation_score (post : Post) (newVote : Vote) :
    (voteMutation post newVote).Score
      = upvoteCount (voteMutation post newVote).Votes
        - downvoteCount (voteMutation post newVote).Votes := by
  obtain ⟨q, hq⟩ := voteMutation_eq_updatePercentage post newVote
  rw [hq, updatePercentage_score, updatePercentage_votes]

theorem voteMutation_pct (post : Post) (newVote : Vote) :
    (voteMutation post newVote).UpvotePercentage
      = if upvoteCount (voteMutation post newVote).Votes
            + downvoteCount (voteMutation post newVote).Votes > 0 then
          Int.tdiv (upvoteCount (voteMutation post newVote).Votes)
            (upvoteCount (voteMutation post newVote).Votes
              + downvoteCount (voteMutation post newVote).Votes) * 100
        else 0 := by
  obtain ⟨q, hq⟩ := voteMutation_eq_updatePercentage post newVote
  rw [hq, updatePercentage_pct, updatePercentage_votes]

theorem upvoteCount_nonneg (votes : List Vote) : 0 ≤ upvoteCount votes := by
  unfold upvoteCount; exact Int.natCast_nonneg _

theorem downvoteCount_nonneg (votes : List Vote) : 0 ≤ downvoteCount votes := by
  unfold downvoteCount; exact Int.natCast_nonneg _

theorem tdiv_total_cases (up down : Int) (hu : 0 ≤ up) (hd : 0 ≤ down) :
    (if up + down > 0 then Int.tdiv up (up + down) * 100 else 0)
      = if 1 ≤ up ∧ down = 0 then 100 else 0 := by
  by_cases hd0 : down = 0
  · subst hd0
    by_cases hu0 : 1 ≤ up
    · have hne : up ≠ 0 := by omega
      rw [if_pos (by omega), if_pos ⟨hu0, rfl⟩, Int.add_zero, Int.tdiv_self hne]
      rfl
    · rw [if_neg (by omega), if_neg (by omega)]
  · have hlt : up < up + down := by omega
    rw [if_pos (by omega), if_neg (by omega), Int.tdiv_eq_zero_of_lt hu hlt]
    rfl

theorem voteMutation_pct_cases (post : Post) (newVote : Vote) :
    (voteMutation post newVote).UpvotePercentage
      = if 1 ≤ upvoteCount (voteMutation post newVote).Votes
            ∧ downvoteCount (voteMutation post newVote).Votes = 0 then 100 else 0 := by
  rw [voteMutation_pct]
  exact tdiv_total_cases _ _ (upvoteCount_nonneg _) (downvoteCount_nonneg _)

theorem voteMutation_votes_remove_perm (post : Post) (newVote : Vote)
    (h : hasVote post.Votes newVote.UserId) :
    (voteMutation post newVote).Votes.Perm
      (post.Votes.eraseP (fun v => decide (v.UserId = newVote.UserId))) := by
  rw [voteMutation_votes_remove post newVote h]
  obtain ⟨mid, v, suf, e, hv, hm⟩ := hasVote_split h
  rw [e, removeVoteLoop_split _ mid suf v hm hv]
  have he : (mid ++ v :: suf).eraseP (fun v => decide (v.UserId = newVote.UserId))
      = mid ++ suf := by
    rw [List.eraseP_append_right _ (by simpa using hm)]
    simp [hv]
  rw [he]
  exact List.Perm.append_left mid (moved_last_perm v suf)

theorem mem_voteMutation_votes (post : Post) (newVote : Vote) (v : Vote)
    (hv : v ∈ (voteMutation post newVote).Votes) :
    v ∈ post.Votes ∨ (v = newVote ∧ newVote.Score ≠ 0) := by
  by_cases h : hasVote post.Votes newVote.UserId
  · have hp := voteMutation_votes_remove_perm post newVote h
    exact Or.inl (List.mem_of_mem_eraseP (hp.mem_iff.mp hv))
  · by_cases hs : newVote.Score ≠ 0
    · rw [voteMutation_votes_insert post newVote h hs] at hv
      rcases List.mem_append.mp hv with hv | hv
      · exact Or.inl hv
      · exact Or.inr ⟨List.mem_singleton.mp hv, hs⟩
    · rw [voteMutation_votes_noop post newVote h (not_not.mp hs)] at hv
      exact Or.inl hv

theorem voteMutation_uniqueVoters (post : Post) (newVote : Vote)
    (h : uniqueVoters post.Votes) : uniqueVoters (voteMutation post newVote).Votes := by
  unfold uniqueVoters at *
  by_cases hv : hasVote post.Votes newVote.UserId
  · have hp := voteMutation_votes_remove_perm post newVote hv
    have hsub : ((post.Votes.eraseP (fun v => decide (v.UserId = newVote.UserId))).map
        Vote.UserId).Sublist (post.Votes.map Vote.UserId) :=
      (List.eraseP_sublist post.Votes).map Vote.UserId
    exact ((hp.map Vote.UserId).nodup_iff).mpr (h.sublist hsub)
  · by_cases hs : newVote.Score ≠ 0
    · rw [voteMutation_votes_insert post newVote hv hs, List.map_append]
      refine List.Nodup.append h (by simp) ?_
      intro x hx hx2
      simp only [List.map_cons, List.map_nil, List.mem_singleton] at hx2
      obtain ⟨w, hw, hwx⟩ := List.mem_map.mp hx
      exact hv ⟨w, hw, by rw [hwx, hx2]⟩
    · rw [voteMutation_votes_noop post newVote hv (not_not.mp hs)]
      exact h

theorem voteAll_uniqueVoters (post : Post) (calls : List Vote)
    (h : uniqueVoters post.Votes) : uniqueVoters (voteAll post calls).Votes := by
  induction calls generalizing post with
  | nil => exact h
  | cons c cs ih => exact ih (voteMutation post c) (voteMutation_uniqueVoters post c h)

theorem voteMutation_id (post : Post) (newVote : Vote) :
    (voteMutation post newVote).Id = post.Id := by
  unfold voteMutation
  simp only []
  split <;> rfl

theorem findOne_updateOneSet (posts : List Post) (id : String) (p : Post) (hp : p.Id = id)
    (h : (findOne posts id).isSome) : findOne (updateOneSet posts id p) id = some p := by
  induction posts with
  | nil => simp [findOne] at h
  | cons d ds ih =>
    unfold updateOneSet
    by_cases hd : d.Id = id
    · simp [hd, findOne, hp]
    · simp only [hd, if_false, findOne]
      simp only [findOne, hd, if_false] at h
      exact ih h

theorem voteAll_append (post : Post) (calls : List Vote) (c : Vote) :
    voteAll post (calls ++ [c]) = voteMutation (voteAll post calls) c := by
  induction calls generalizing post with
  | nil => rfl
  | cons v vs ih => simp [voteAll, ih]

/-! ## The vote transition -/

/-- C1: the vote collection produced by the transition of `Repo.Vote` is, as a
collection (up to the order of its entries), the original one with the voter's
first entry erased when the voter already has an entry, whatever the requested
score; otherwise it is the original list with the new vote appended when the
requested score is nonzero; otherwise it is the original list. -/
theorem vote_transition (post : Post) (newVote : Vote) :
    if hasVote post.Votes newVote.UserId then
      (voteMutation post newVote).Votes.Perm
        (post.Votes.eraseP (fun v => decide (v.UserId = newVote.UserId)))
    else if newVote.Score ≠ 0 then
      (voteMutation post newVote).Votes = post.Votes ++ [newVote]
    else
      (voteMutation post newVote).Votes = post.Votes := by
  by_cases h : hasVote post.Votes newVote.UserId
  · rw [if_pos h]
    exact voteMutation_votes_remove_perm post newVote h
  · rw [if_neg h]
    by_cases hs : newVote.Score ≠ 0
    · rw [if_pos hs]
      exact voteMutation_votes_insert post newVote h hs
    · rw [if_neg hs]
      exact voteMutation_votes_noop post newVote h (not_not.mp hs)

/-- C2, as stated, fails: a voter who already has an upvote on the post has a
vote again after two further upvote calls (the first removes, the second
inserts). -/
theorem toggle_off_fails_for_existing_voter :
    hasVote (voteMutation (voteMutation (mkPost "p" [{ UserId := "u", Score := 1 }])
      { UserId := "u", Score := ScoreUp }) { UserId := "u", Score := ScoreUp }).Votes "u" := by
  decide

/-- C2, amended: for every post in which the voter has no vote, after
`Vote(P,U,+1)` followed by `Vote(P,U,+1)` the voter has no vote on the post;
the vote collection is the original one. -/
theorem toggle_off (post : Post) (userId : String) (h : ¬ hasVote post.Votes userId) :
    let post2 := voteMutation (voteMutation post { UserId := userId, Score := ScoreUp })
      { UserId := userId, Score := ScoreUp }
    ¬ hasVote post2.Votes userId ∧ post2.Votes = post.Votes := by
  have e := voteMutation_insert_then_vote post userId ScoreUp ScoreUp h (by decide)
  simp only []
  rw [e]
  exact ⟨h, rfl⟩

/-- Instance of `toggle_off` on a post holding another user's downvote. -/
theorem toggle_off_witness :
    ¬ hasVote (mkPost "p" [{ UserId := "w", Score := -1 }]).Votes "u" ∧
    ¬ hasVote (voteMutation (voteMutation (mkPost "p" [{ UserId := "w", Score := -1 }])
        { UserId := "u", Score := ScoreUp }) { UserId := "u", Score := ScoreUp }).Votes "u" :=
  ⟨by decide, (toggle_off (mkPost "p" [{ UserId := "w", Score := -1 }]) "u" (by decide)).1⟩

/-- C3: for any starting post and any finite sequence of vote calls, after
every call the post's `Score` is the number of stored votes with score `+1`
minus the number of stored votes with score `-1`. -/
theorem score_invariant (post : Post) (calls : List Vote) (c : Vote) :
    (voteAll post (calls ++ [c])).Score
      = upvoteCount (voteAll post (calls ++ [c])).Votes
        - downvoteCount (voteAll post (calls ++ [c])).Votes := by
  rw [voteAll_append]
  exact voteMutation_score _ c

/-! ## The upvote percentage -/

/-- C4: on the scenario post, reached by a downvote of `u3` on a post holding
upvotes of `u1` and `u2`, the code leaves score 1 and `UpvotePercentage` 0,
whereas `(upvoteCount * 100) / totalVotes` is 66. -/
theorem percentage_of_two_up_one_down :
    (voteMutation (mkPost "p" [{ UserId := "u1", Score := 1 }, { UserId := "u2", Score := 1 }])
        { UserId := "u3", Score := ScoreDown }).Votes
      = [{ UserId := "u1", Score := 1 }, { UserId := "u2", Score := 1 },
         { UserId := "u3", Score := -1 }] ∧
    (voteMutation (mkPost "p" [{ UserId := "u1", Score := 1 }, { UserId := "u2", Score := 1 }])
        { UserId := "u3", Score := ScoreDown }).Score = 1 ∧
    (voteMutation (mkPost "p" [{ UserId := "u1", Score := 1 }, { UserId := "u2", Score := 1 }])
        { UserId := "u3", Score := ScoreDown }).UpvotePercentage = 0 ∧
    Int.tdiv (upvoteCount [{ UserId := "u1", Score := 1 }, { UserId := "u2", Score := 1 },
         { UserId := "u3", Score := -1 }] * 100)
      (upvoteCount [{ UserId := "u1", Score := 1 }, { UserId := "u2", Score := 1 },
         { UserId := "u3", Score := -1 }]
       + downvoteCount [{ UserId := "u1", Score := 1 }, { UserId := "u2", Score := 1 },
         { UserId := "u3", Score := -1 }]) = 66 := by
  decide

/-- C5: after every vote operation `UpvotePercentage` is 100 when there is at
least one upvote and no downvote, and 0 in every other case; it is 0 whenever
the total number of votes is 0, and it lies in `0..100`. -/
theorem percentage_is_zero_or_hundred (post : Post) (newVote : Vote) :
    (voteMutation post newVote).UpvotePercentage
      = (if 1 ≤ upvoteCount (voteMutation post newVote).Votes
            ∧ downvoteCount (voteMutation post newVote).Votes = 0 then 100 else 0) ∧
    (upvoteCount (voteMutation post newVote).Votes
        + downvoteCount (voteMutation post newVote).Votes = 0 →
      (voteMutation post newVote).UpvotePercentage = 0) ∧
    0 ≤ (voteMutation post newVote).UpvotePercentage ∧
    (voteMutation post newVote).UpvotePercentage ≤ 100 := by
  have key := voteMutation_pct_cases post newVote
  refine ⟨key, ?_, ?_, ?_⟩
  · intro h0
    rw [key, if_neg]
    have := upvoteCount_nonneg (voteMutation post newVote).Votes
    have := downvoteCount_nonneg (voteMutation post newVote).Votes
    omega
  · rw [key]; split <;> decide
  · rw [key]; split <;> decide

/-- Instance of `percentage_is_zero_or_hundred`: an unvote on a post without votes. -/
theorem percentage_is_zero_or_hundred_witness :
    upvoteCount (voteMutation (mkPost "p" []) { UserId := "u", Score := ScoreDiscard }).Votes
        + downvoteCount (voteMutation (mkPost "p" [])
            { UserId := "u", Score := ScoreDiscard }).Votes = 0 ∧
    (voteMutation (mkPost "p" []) { UserId := "u", Score := ScoreDiscard }).UpvotePercentage = 0 :=
  ⟨by decide,
   (percentage_is_zero_or_hundred (mkPost "p" []) { UserId := "u", Score := ScoreDiscard }).2.1
     (by decide)⟩

/-- C6, as stated, fails: after an upvote of `u2` on a post holding an upvote
of `u1` and a downvote of `u3`, two of three votes are upvotes, the rounded
percentage is 67 and the stored `UpvotePercentage` is 0. -/
theorem rounded_percentage_fails :
    (voteMutation (mkPost "p" [{ UserId := "u1", Score := 1 }, { UserId := "u3", Score := -1 }])
        { UserId := "u2", Score := ScoreUp }).UpvotePercentage = 0 ∧
    roundedPercentage (voteMutation
        (mkPost "p" [{ UserId := "u1", Score := 1 }, { UserId := "u3", Score := -1 }])
        { UserId := "u2", Score := ScoreUp }).Votes = 67 ∧
    (voteMutation (mkPost "p" [{ UserId := "u1", Score := 1 }, { UserId := "u3", Score := -1 }])
        { UserId := "u2", Score := ScoreUp }).UpvotePercentage
      ≠ roundedPercentage (voteMutation
        (mkPost "p" [{ UserId := "u1", Score := 1 }, { UserId := "u3", Score := -1 }])
        { UserId := "u2", Score := ScoreUp }).Votes := by
  have hv : (voteMutation
        (mkPost "p" [{ UserId := "u1", Score := 1 }, { UserId := "u3", Score := -1 }])
        { UserId := "u2", Score := ScoreUp }).Votes
      = [{ UserId := "u1", Score := 1 }, { UserId := "u3", Score := -1 },
         { UserId := "u2", Score := 1 }] := by decide
  have hp : (voteMutation
        (mkPost "p" [{ UserId := "u1", Score := 1 }, { UserId := "u3", Score := -1 }])
        { UserId := "u2", Score := ScoreUp }).UpvotePercentage = 0 := by decide
  have hu : upvoteCount [{ UserId := "u1", Score := 1 }, { UserId := "u3", Score := -1 },
         { UserId := "u2", Score := 1 }] = 2 := by decide
  have hd : downvoteCount [{ UserId := "u1", Score := 1 }, { UserId := "u3", Score := -1 },
         { UserId := "u2", Score := 1 }] = 1 := by decide
  have hr : roundedPercentage [{ UserId := "u1", Score := 1 }, { UserId := "u3", Score := -1 },
         { UserId := "u2", Score := 1 }] = 67 := by
    unfold roundedPercentage
    rw [hu, hd, if_pos (by decide), round_eq, Int.floor_eq_iff]
    norm_num
  rw [hv, hp, hr]
  exact ⟨rfl, rfl, by decide⟩

/-- C6, amended: after every vote operation that leaves no mixture of upvotes
and downvotes (no upvote, or no downvote), `UpvotePercentage` equals
`round(upvoteCount / (upvoteCount + downvoteCount) * 100)` over the rationals,
and 0 when there are no votes. -/
theorem rounded_percentage_unmixed (post : Post) (newVote : Vote)
    (h : upvoteCount (voteMutation post newVote).Votes = 0
      ∨ downvoteCount (voteMutation post newVote).Votes = 0) :
    (voteMutation post newVote).UpvotePercentage
      = roundedPercentage (voteMutation post newVote).Votes := by
  rw [voteMutation_pct_cases]
  unfold roundedPercentage
  have hu := upvoteCount_nonneg (voteMutation post newVote).Votes
  have hd := downvoteCount_nonneg (voteMutation post newVote).Votes
  generalize upvoteCount (voteMutation post newVote).Votes = up at *
  generalize downvoteCount (voteMutation post newVote).Votes = down at *
  rcases h with h | h
  · subst h
    rw [if_neg (by omega)]
    split
    · simp
    · rfl
  · subst h
    by_cases hu1 : 1 ≤ up
    · have hq : (up : ℚ) ≠ 0 := by
        have : up ≠ 0 := by omega
        exact_mod_cast this
      rw [if_pos ⟨hu1, rfl⟩, if_pos (by omega)]
      simp [div_self hq]
    · rw [if_neg (by omega), if_neg (by omega)]

/-- Instance of `rounded_percentage_unmixed`: a second upvote on a post with one upvote. -/
theorem rounded_percentage_unmixed_witness :
    (upvoteCount (voteMutation (mkPost "p" [{ UserId := "u1", Score := 1 }])
        { UserId := "u2", Score := ScoreUp }).Votes = 0
      ∨ downvoteCount (voteMutation (mkPost "p" [{ UserId := "u1", Score := 1 }])
        { UserId := "u2", Score := ScoreUp }).Votes = 0) ∧
    (voteMutation (mkPost "p" [{ UserId := "u1", Score := 1 }])
        { UserId := "u2", Score := ScoreUp }).UpvotePercentage
      = roundedPercentage (voteMutation (mkPost "p" [{ UserId := "u1", Score := 1 }])
        { UserId := "u2", Score := ScoreUp }).Votes :=
  ⟨Or.inr (by decide),
   rounded_percentage_unmixed (mkPost "p" [{ UserId := "u1", Score := 1 }])
     { UserId := "u2", Score := ScoreUp } (Or.inr (by decide))⟩

/-! ## Invariants of the vote collection -/

/-- C7: `Repo.Vote` preserves uniqueness of voters: a vote collection with at
most one entry per `UserId` has at most one entry per `UserId` after a vote of
any voter with any requested score, and after any sequence of votes; hence
every post reached from an empty vote collection has at most one vote per
user. -/
theorem vote_preserves_unique_voters (post : Post) (newVote : Vote) (calls : List Vote)
    (h : uniqueVoters post.Votes) :
    uniqueVoters (voteMutation post newVote).Votes ∧
    uniqueVoters (voteAll post calls).Votes ∧
    ∀ empty : Post, empty.Votes = [] → uniqueVoters (voteAll empty calls).Votes := by
  refine ⟨voteMutation_uniqueVoters post newVote h, voteAll_uniqueVoters post calls h, ?_⟩
  intro empty he
  apply voteAll_uniqueVoters
  unfold uniqueVoters
  rw [he]
  exact List.nodup_nil

/-- Instance of `vote_preserves_unique_voters`: two voters on a post, then a
removal and three further calls. -/
theorem vote_preserves_unique_voters_witness :
    uniqueVoters (mkPost "p" [{ UserId := "u1", Score := 1 }, { UserId := "u2", Score := -1 }]).Votes ∧
    uniqueVoters (voteMutation
      (mkPost "p" [{ UserId := "u1", Score := 1 }, { UserId := "u2", Score := -1 }])
      { UserId := "u1", Score := ScoreDown }).Votes ∧
    uniqueVoters (voteAll
      (mkPost "p" [{ UserId := "u1", Score := 1 }, { UserId := "u2", Score := -1 }])
      [{ UserId := "u3", Score := 1 }, { UserId := "u3", Score := 1 },
       { UserId := "u1", Score := 0 }]).Votes :=
  ⟨by decide,
   (vote_preserves_unique_voters
      (mkPost "p" [{ UserId := "u1", Score := 1 }, { UserId := "u2", Score := -1 }])
      { UserId := "u1", Score := ScoreDown }
      [{ UserId := "u3", Score := 1 }, { UserId := "u3", Score := 1 },
       { UserId := "u1", Score := 0 }] (by decide)).1,
   (vote_preserves_unique_voters
      (mkPost "p" [{ UserId := "u1", Score := 1 }, { UserId := "u2", Score := -1 }])
      { UserId := "u1", Score := ScoreDown }
      [{ UserId := "u3", Score := 1 }, { UserId := "u3", Score := 1 },
       { UserId := "u1", Score := 0 }] (by decide)).2.1⟩

/-- C8: `Repo.Vote` never stores a score-0 vote: when no stored vote has score
0 before the call, none has afterwards, for every voter and every requested
score, 0 included; and when the stored scores are in `{-1,+1}` and the
requested score is in `{-1,0,+1}`, the stored scores stay in `{-1,+1}`. -/
theorem vote_never_stores_discard (post : Post) (newVote : Vote)
    (h : ∀ v ∈ post.Votes, v.Score ≠ ScoreDiscard) :
    (∀ v ∈ (voteMutation post newVote).Votes, v.Score ≠ ScoreDiscard) ∧
    ((∀ v ∈ post.Votes, v.Score = ScoreDown ∨ v.Score = ScoreUp) →
      (newVote.Score = ScoreDown ∨ newVote.Score = ScoreDiscard ∨ newVote.Score = ScoreUp) →
      ∀ v ∈ (voteMutation post newVote).Votes, v.Score = ScoreDown ∨ v.Score = ScoreUp) := by
  constructor
  · intro v hv
    rcases mem_voteMutation_votes post newVote v hv with hm | ⟨rfl, hs⟩
    · exact h v hm
    · exact hs
  · intro hall hreq v hv
    rcases mem_voteMutation_votes post newVote v hv with hm | ⟨rfl, hs⟩
    · exact hall v hm
    · rcases hreq with h1 | h0 | h1
      · exact Or.inl h1
      · exact absurd h0 hs
      · exact Or.inr h1

/-- Instance of `vote_never_stores_discard`: an unvote by a user who has not
voted, on a post with one upvote and one downvote. -/
theorem vote_never_stores_discard_witness :
    (∀ v ∈ (mkPost "p" [{ UserId := "u1", Score := 1 }, { UserId := "u2", Score := -1 }]).Votes,
      v.Score ≠ ScoreDiscard) ∧
    (∀ v ∈ (voteMutation
        (mkPost "p" [{ UserId := "u1", Score := 1 }, { UserId := "u2", Score := -1 }])
        { UserId := "u3", Score := ScoreDiscard }).Votes, v.Score ≠ ScoreDiscard) ∧
    (∀ v ∈ (voteMutation
        (mkPost "p" [{ UserId := "u1", Score := 1 }, { UserId := "u2", Score := -1 }])
        { UserId := "u3", Score := ScoreDiscard }).Votes,
      v.Score = ScoreDown ∨ v.Score = ScoreUp) :=
  ⟨by decide,
   (vote_never_stores_discard
      (mkPost "p" [{ UserId := "u1", Score := 1 }, { UserId := "u2", Score := -1 }])
      { UserId := "u3", Score := ScoreDiscard } (by decide)).1,
   (vote_never_stores_discard
      (mkPost "p" [{ UserId := "u1", Score := 1 }, { UserId := "u2", Score := -1 }])
      { UserId := "u3", Score := ScoreDiscard } (by decide)).2 (by decide) (by decide)⟩

/-! ## Concurrent requests and failures -/

/-- C9: a lost update.  Two voters without a vote on a stored post send an
upvote and a downvote; when both requests read the post before either writes
(first reads, second reads, first writes, second writes), both are answered
200 and the stored vote collection is the original one plus the second voter's
entry only: the first voter's entry is absent. -/
theorem concurrent_votes_lose_update (r : Repo) (post : Post) (voter voter2 : User)
    (hstored : findOne r.posts post.Id = some post) (hne : voter.Id ≠ voter2.Id)
    (h1 : ¬ hasVote post.Votes voter.Id) (h2 : ¬ hasVote post.Votes voter2.Id) :
    ∃ stored answer answer2,
      runSchedule r (VoteReq.start (some voter) post.Id ScoreUp)
          (VoteReq.start (some voter2) post.Id ScoreDown) [false, true, false, true]
        = ({ posts := updateOneSet (updateOneSet r.posts post.Id answer) post.Id stored },
           VoteReq.done 200 (some answer), VoteReq.done 200 (some answer2)) ∧
      findOne (updateOneSet (updateOneSet r.posts post.Id answer) post.Id stored) post.Id
        = some stored ∧
      stored.Votes = post.Votes ++ [{ UserId := voter2.Id, Score := ScoreDown }] ∧
      ¬ hasVote stored.Votes voter.Id := by
  refine ⟨voteMutation post { UserId := voter2.Id, Score := ScoreDown },
    voteMutation post { UserId := voter.Id, Score := ScoreUp },
    voteMutation post { UserId := voter2.Id, Score := ScoreDown }, ?_, ?_, ?_, ?_⟩
  · simp [runSchedule, VoteReq.step, Repo.GetById, hstored, Repo.Vote, WithTransaction,
      voteRun, voteCallback, Repo.Update, voteMutation_id]
  · apply findOne_updateOneSet _ _ _ (voteMutation_id _ _)
    rw [findOne_updateOneSet _ _ _ (voteMutation_id _ _) (by rw [hstored]; rfl)]
    rfl
  · exact voteMutation_votes_insert post { UserId := voter2.Id, Score := ScoreDown } h2
      (show ScoreDown ≠ 0 by decide)
  · rw [voteMutation_votes_insert post { UserId := voter2.Id, Score := ScoreDown } h2
      (show ScoreDown ≠ 0 by decide)]
    rintro ⟨v, hv, hvu⟩
    rcases List.mem_append.mp hv with hv | hv
    · exact h1 ⟨v, hv, hvu⟩
    · rw [List.mem_singleton.mp hv] at hvu
      exact hne hvu.symm

/-- Instance of `concurrent_votes_lose_update` on a stored post without votes. -/
theorem concurrent_votes_lose_update_witness :
    (runSchedule { posts := [mkPost "p" []] }
        (VoteReq.start (some { Username := "ann", Password := [], Id := "1" }) "p" ScoreUp)
        (VoteReq.start (some { Username := "bob", Password := [], Id := "2" }) "p" ScoreDown)
        [false, true, false, true]).1
      = { posts := [{ mkPost "p" [{ UserId := "2", Score := -1 }] with Score := -1 }] } ∧
    ∃ stored answer answer2,
      runSchedule { posts := [mkPost "p" []] }
          (VoteReq.start (some { Username := "ann", Password := [], Id := "1" })
            (mkPost "p" []).Id ScoreUp)
          (VoteReq.start (some { Username := "bob", Password := [], Id := "2" })
            (mkPost "p" []).Id ScoreDown) [false, true, false, true]
        = ({ posts := updateOneSet (updateOneSet [mkPost "p" []] (mkPost "p" []).Id answer)
              (mkPost "p" []).Id stored },
           VoteReq.done 200 (some answer), VoteReq.done 200 (some answer2)) ∧
      findOne (updateOneSet (updateOneSet [mkPost "p" []] (mkPost "p" []).Id answer)
          (mkPost "p" []).Id stored) (mkPost "p" []).Id = some stored ∧
      stored.Votes = (mkPost "p" []).Votes ++ [{ UserId := "2", Score := ScoreDown }] ∧
      ¬ hasVote stored.Votes "1" :=
  ⟨by decide,
   concurrent_votes_lose_update { posts := [mkPost "p" []] } (mkPost "p" [])
     { Username := "ann", Password := [], Id := "1" }
     { Username := "bob", Password := [], Id := "2" }
     (by decide) (by decide) (by decide) (by decide)⟩

theorem voteRun_err (newVote : Vote) (uerr : Option Error) (s : Post × Repo) :
    (voteRun newVote uerr s).1
      = uerr.map (fun e =>
          Error.wrap "post/repo: can't update vote "
            (Error.wrap "post/repo: failed updating post: " e)) := by
  cases uerr <;> simp [voteRun, voteCallback, Repo.Update]

theorem voteRun_post (newVote : Vote) (uerr : Option Error) (s : Post × Repo) :
    (voteRun newVote uerr s).2.1 = voteMutation s.1 newVote := by
  cases uerr <;> simp [voteRun, voteCallback, Repo.Update]

theorem voteRun_repo_of_err (newVote : Vote) (e : Error) (s : Post × Repo) :
    (voteRun newVote (some e) s).2.2 = s.2 := by
  simp [voteRun, voteCallback, Repo.Update]

theorem voteAll_replicate_succ (post : Post) (newVote : Vote) (n : Nat) :
    voteAll post (List.replicate (n + 1) newVote)
      = voteAll (voteMutation post newVote) (List.replicate n newVote) := rfl

theorem withTransaction_voteRun (newVote : Vote) (updateOneErr : Option Error)
    (retryErrs : List (Option Error)) (s : Post × Repo) :
    1 ≤ (WithTransaction (voteRun newVote) updateOneErr retryErrs s).2.2 ∧
    (WithTransaction (voteRun newVote) updateOneErr retryErrs s).2.2 ≤ retryErrs.length + 1 ∧
    (WithTransaction (voteRun newVote) updateOneErr retryErrs s).2.1.1
      = voteAll s.1 (List.replicate
          (WithTransaction (voteRun newVote) updateOneErr retryErrs s).2.2 newVote) ∧
    ((WithTransaction (voteRun newVote) updateOneErr retryErrs s).1 = none ↔
      (updateOneErr :: retryErrs).get?
          ((WithTransaction (voteRun newVote) updateOneErr retryErrs s).2.2 - 1) = some none) ∧
    ((WithTransaction (voteRun newVote) updateOneErr retryErrs s).1 ≠ none →
      (WithTransaction (voteRun newVote) updateOneErr retryErrs s).2.1.2 = s.2) := by
  induction retryErrs generalizing updateOneErr s with
  | nil =>
    simp only [WithTransaction, voteRun_err, voteRun_post]
    refine ⟨le_refl 1, by simp, rfl, ?_, ?_⟩
    · cases updateOneErr <;> simp
    · cases updateOneErr with
      | none => simp
      | some e => intro _; exact voteRun_repo_of_err newVote e s
  | cons next later ih =>
    cases updateOneErr with
    | none =>
      have h1 : (voteRun newVote none s).1 = none := by rw [voteRun_err]; rfl
      have he : WithTransaction (voteRun newVote) none (next :: later) s
          = (none, (voteRun newVote none s).2, 1) := by
        rw [WithTransaction]
        split
        · rename_i err s1 heq
          rw [heq] at h1
          simp at h1
        · rename_i s1 heq
          rw [heq]
      rw [he]
      refine ⟨le_refl 1, by simp, ?_, by simp, by simp⟩
      simp only [voteRun_post]
      rfl
    | some e =>
      have h1 : (voteRun newVote (some e) s).1
          = some (Error.wrap "post/repo: can't update vote "
              (Error.wrap "post/repo: failed updating post: " e)) := by
        rw [voteRun_err]; rfl
      by_cases hl : e.hasLabel "TransientTransactionError" = true
      · have he : WithTransaction (voteRun newVote) (some e) (next :: later) s
            = ((WithTransaction (voteRun newVote) next later (voteRun newVote (some e) s).2).1,
               (WithTransaction (voteRun newVote) next later (voteRun newVote (some e) s).2).2.1,
               (WithTransaction (voteRun newVote) next later (voteRun newVote (some e) s).2).2.2
                 + 1) := by
          rw [WithTransaction]
          split
          · rename_i err s1 heq
            rw [heq] at h1
            simp only [Option.some.injEq] at h1
            subst h1
            simp only [Error.hasLabel, hl, if_true, heq]
          · rename_i s1 heq
            rw [heq] at h1
            simp at h1
        obtain ⟨i1, i2, i3, i4, i5⟩ := ih next (voteRun newVote (some e) s).2
        rw [he]
        refine ⟨by simp, by simp only [List.length_cons]; omega, ?_, ?_, ?_⟩
        · simp only []
          rw [i3, voteAll_replicate_succ, voteRun_post]
        · simp only []
          rw [i4]
          have hpos : (WithTransaction (voteRun newVote) next later
              (voteRun newVote (some e) s).2).2.2 + 1 - 1
              = ((WithTransaction (voteRun newVote) next later
                  (voteRun newVote (some e) s).2).2.2 - 1) + 1 := by omega
          rw [hpos, List.get?_cons_succ]
        · intro hne
          simp only [] at hne ⊢
          rw [i5 hne, voteRun_repo_of_err]
      · have he : WithTransaction (voteRun newVote) (some e) (next :: later) s
            = (some (Error.wrap "post/repo: can't update vote "
                (Error.wrap "post/repo: failed updating post: " e)),
               (voteRun newVote (some e) s).2, 1) := by
          rw [WithTransaction]
          split
          · rename_i err s1 heq
            rw [heq] at h1
            simp only [Option.some.injEq] at h1
            subst h1
            simp only [Error.hasLabel, hl, heq]
            simp
          · rename_i s1 heq
            rw [heq] at h1
            simp at h1
        rw [he]
        refine ⟨le_refl 1, by simp, ?_, by simp, ?_⟩
        · simp only [voteRun_post]
          rfl
        · intro _
          exact voteRun_repo_of_err newVote e s

theorem vote_started_eq (r : Repo) (updateOneErr : Option Error)
    (retryErrs : List (Option Error)) (post : Post) (newVote : Vote) :
    r.Vote none updateOneErr retryErrs post newVote
      = { err := (WithTransaction (voteRun newVote) updateOneErr retryErrs (post, r)).1
          post := (WithTransaction (voteRun newVote) updateOneErr retryErrs (post, r)).2.1.1
          repo := (WithTransaction (voteRun newVote) updateOneErr retryErrs (post, r)).2.1.2
          callbackRuns :=
            (WithTransaction (voteRun newVote) updateOneErr retryErrs (post, r)).2.2 } := by
  rcases h : WithTransaction (voteRun newVote) updateOneErr retryErrs (post, r) with
    ⟨err, ⟨p1, r1⟩, n⟩
  cases err <;> simp [Repo.Vote, h]

theorem vote_single_run_eq (r : Repo) (updateOneErr : Option Error)
    (retryErrs : List (Option Error)) (post : Post) (newVote : Vote)
    (h : updateOneErr = none ∨ retryErrs = [] ∨
      ∃ e, updateOneErr = some e ∧ e.hasLabel "TransientTransactionError" = false) :
    r.Vote none updateOneErr retryErrs post newVote
      = { err := updateOneErr.map (fun e =>
            Error.wrap "post/repo: can't update vote "
              (Error.wrap "post/repo: failed updating post: " e))
          post := voteMutation post newVote
          repo := (voteRun newVote updateOneErr (post, r)).2.2
          callbackRuns := 1 } := by
  rw [vote_started_eq]
  cases retryErrs with
  | nil => simp only [WithTransaction, voteRun_err, voteRun_post]
  | cons next later =>
    rcases h with h | h | ⟨e, h, hl⟩
    · subst h
      simp [WithTransaction, voteRun, voteCallback, Repo.Update]
    · simp at h
    · subst h
      simp [WithTransaction, voteRun, voteCallback, Repo.Update, Error.hasLabel, hl]

theorem GetByUsernameAndPass_of_row (IDKey : List Nat → List Nat → List Nat) (r : UserRepo)
    (uname : String) (pass : List Nat) (u : User)
    (hrow : queryRowByUsername r.rows uname = some u) (hlen : 8 ≤ u.Password.length) :
    r.GetByUsernameAndPass IDKey none uname pass
      = if HashPass IDKey pass (u.Password.take 8) ≠ u.Password then
          Outcome.returned (Except.error (Error.base "user/repo: password is invalid"))
        else Outcome.returned (Except.ok u) := by
  have hcap : scannedCap u.Password.length = u.Password.length := by
    unfold scannedCap
    rw [if_neg (by omega)]
    omega
  have hn : ¬ u.Password.length < 8 := by omega
  simp only [UserRepo.GetByUsernameAndPass, hrow, hcap, hn, if_false, Nat.sub_self,
    List.replicate_zero, List.append_nil]

theorem GetByUsernameAndPass_of_short (IDKey : List Nat → List Nat → List Nat) (r : UserRepo)
    (uname : String) (pass : List Nat) (u : User)
    (hrow : queryRowByUsername r.rows uname = some u) (hpos : 1 ≤ u.Password.length)
    (hlen : u.Password.length < 8) :
    r.GetByUsernameAndPass IDKey none uname pass
      = Outcome.returned (Except.error (Error.base "user/repo: password is invalid")) := by
  have hcap : scannedCap u.Password.length = 8 := by
    unfold scannedCap
    rw [if_neg (by omega)]
    omega
  have hne : HashPass IDKey pass
      ((u.Password ++ List.replicate (8 - u.Password.length) 0).take 8) ≠ u.Password := by
    intro heq
    have hl := congrArg List.length heq
    simp only [HashPass, List.length_append, List.length_take, List.length_replicate] at hl
    omega
  simp only [UserRepo.GetByUsernameAndPass, hrow, hcap, Nat.lt_irrefl, if_false, hne, ne_eq,
    not_false_eq_true, if_true]

theorem GetByUsernameAndPass_of_empty (IDKey : List Nat → List Nat → List Nat) (r : UserRepo)
    (uname : String) (pass : List Nat) (u : User)
    (hrow : queryRowByUsername r.rows uname = some u) (hlen : u.Password.length = 0) :
    r.GetByUsernameAndPass IDKey none uname pass
      = Outcome.panicked "slice bounds out of range" := by
  simp [UserRepo.GetByUsernameAndPass, hrow, hlen, scannedCap]

theorem GetByUsernameAndPass_ok (IDKey : List Nat → List Nat → List Nat) (r : UserRepo)
    (queryErr : Option Error) (uname : String) (pass : List Nat) (v : User)
    (h : r.GetByUsernameAndPass IDKey queryErr uname pass = Outcome.returned (Except.ok v)) :
    queryRowByUsername r.rows uname = some v ∧
    HashPass IDKey pass (v.Password.take 8) = v.Password := by
  cases queryErr with
  | some e => simp [UserRepo.GetByUsernameAndPass] at h
  | none =>
    cases hq : queryRowByUsername r.rows uname with
    | none => simp [UserRepo.GetByUsernameAndPass, hq] at h
    | some u =>
      by_cases h0 : u.Password.length = 0
      · rw [GetByUsernameAndPass_of_empty IDKey r uname pass u hq h0] at h
        simp at h
      · by_cases hl : u.Password.length < 8
        · rw [GetByUsernameAndPass_of_short IDKey r uname pass u hq (by omega) hl] at h
          simp at h
        · rw [GetByUsernameAndPass_of_row IDKey r uname pass u hq (by omega)] at h
          by_cases hp : HashPass IDKey pass (u.Password.take 8) ≠ u.Password
          · simp [hp] at h
          · simp only [hp, if_false, Outcome.returned.injEq, Except.ok.injEq] at h
            subst h
            exact ⟨rfl, not_not.mp hp⟩

/-- C11: password verification undoes hashing: when the row found for the
username stores `HashPass(p, s)` for an 8-byte salt `s`,
`GetByUsernameAndPass(username, p)` returns that row as the user, and no
error. -/
theorem verify_undoes_hash (IDKey : List Nat → List Nat → List Nat) (r : UserRepo)
    (uname : String) (p s : List Nat) (u : User) (hs : s.length = 8)
    (hrow : queryRowByUsername r.rows uname = some u)
    (hpw : u.Password = HashPass IDKey p s) :
    r.GetByUsernameAndPass IDKey none uname p = Outcome.returned (Except.ok u) := by
  have htake : u.Password.take 8 = s := by
    rw [hpw, HashPass, ← hs, List.take_left]
  have hlen : 8 ≤ u.Password.length := by
    rw [hpw, HashPass, List.length_append]; omega
  rw [GetByUsernameAndPass_of_row IDKey r uname p u hrow hlen, htake, ← hpw]
  simp

/-- Instance of `verify_undoes_hash`: one stored user, salt `1..8`, and a key
derivation that concatenates password and salt. -/
theorem verify_undoes_hash_witness :
    UserRepo.GetByUsernameAndPass sampleKey { rows := [pike] } none "pike" [115, 100, 102]
      = Outcome.returned (Except.ok pike) :=
  verify_undoes_hash sampleKey { rows := [pike] } "pike" [115, 100, 102]
    [1, 2, 3, 4, 5, 6, 7, 8] pike (by decide) (by decide) (by decide)

/-- C12: for a row found by username whose stored password has its 8 salt
bytes, a supplied password whose re-derived hash differs from the stored bytes
yields a nil user and the error "password is invalid"; and whatever the
database answers, a user is returned only when it is the row found and the
re-derived hash equals its stored password, byte for byte. -/
theorem wrong_password_is_invalid (IDKey : List Nat → List Nat → List Nat) (r : UserRepo)
    (uname : String) (pass : List Nat) (u : User)
    (hrow : queryRowByUsername r.rows uname = some u) (hlen : 8 ≤ u.Password.length) :
    (HashPass IDKey pass (u.Password.take 8) ≠ u.Password →
      r.GetByUsernameAndPass IDKey none uname pass
        = Outcome.returned (Except.error (Error.base "user/repo: password is invalid"))) ∧
    (∀ (queryErr : Option Error) (v : User),
      r.GetByUsernameAndPass IDKey queryErr uname pass = Outcome.returned (Except.ok v) →
        v = u ∧ HashPass IDKey pass (u.Password.take 8) = u.Password) := by
  constructor
  · intro hne
    rw [GetByUsernameAndPass_of_row IDKey r uname pass u hrow hlen, if_pos hne]
  · intro queryErr v hv
    obtain ⟨hq, hp⟩ := GetByUsernameAndPass_ok IDKey r queryErr uname pass v hv
    have hvu : v = u := by
      rw [hrow] at hq
      exact (Option.some.inj hq).symm
    subst hvu
    exact ⟨rfl, hp⟩

/-- Instance of `wrong_password_is_invalid`: the stored user of
`verify_undoes_hash_witness` and a bad password. -/
theorem wrong_password_is_invalid_witness :
    UserRepo.GetByUsernameAndPass sampleKey { rows := [pike] } none "pike" [98, 97, 100]
      = Outcome.returned (Except.error (Error.base "user/repo: password is invalid")) :=
  (wrong_password_is_invalid sampleKey { rows := [pike] } "pike" [98, 97, 100] pike
    (by decide) (by decide)).1 (by decide)

/-! ## Login and registration -/

/-- C13: when `GetByUsernameAndPass` returns an error for the credentials of a
well-formed login request, `LogIn` responds with status 404, never calls
`CreateToken`, and writes no token to the body. -/
theorem login_failure_is_404 (uh : UserHandler) (httpUser : HttpUser) (e : Error)
    (h : uh.Repo.GetByUsernameAndPass httpUser.Username httpUser.Password = Except.error e) :
    (uh.LogIn (some httpUser)).1.status = some 404 ∧
    (∀ u, UserCall.CreateToken u ∉ (uh.LogIn (some httpUser)).2) ∧
    (∀ t, Payload.token t ∉ (uh.LogIn (some httpUser)).1.body) := by
  simp [UserHandler.LogIn, h, WriteMsg, WriteRespJSON, ResponseWriter.Write,
    ResponseWriter.WriteHeader, ResponseWriter.fresh]

/-- Instance of `login_failure_is_404`: a wrong password for `pike`. -/
theorem login_failure_is_404_witness :
    sampleUserHandler.Repo.GetByUsernameAndPass "pike" [98, 97, 100]
      = Except.error (Error.base "user/repo: password is invalid") ∧
    (sampleUserHandler.LogIn (some { Username := "pike", Password := [98, 97, 100] })).1.status
      = some 404 :=
  ⟨by simp [sampleUserHandler],
   (login_failure_is_404 sampleUserHandler { Username := "pike", Password := [98, 97, 100] }
      (Error.base "user/repo: password is invalid") (by simp [sampleUserHandler])).1⟩

/-- C14: when `UserExists` is true for the username of a well-formed
registration request, `Register` responds with status 409 and calls neither
`Repo.Add` nor `CreateToken`; its only call is `UserExists`, and no token is
written. -/
theorem register_existing_is_409 (IDKey : List Nat → List Nat → List Nat) (uh : UserHandler)
    (salt : List Nat) (httpUser : HttpUser)
    (h : uh.Repo.UserExists httpUser.Username = true) :
    (uh.Register IDKey salt (some httpUser)).1.status = some 409 ∧
    (uh.Register IDKey salt (some httpUser)).2 = [UserCall.UserExists httpUser.Username] ∧
    (∀ u, UserCall.Add u ∉ (uh.Register IDKey salt (some httpUser)).2) ∧
    (∀ u, UserCall.CreateToken u ∉ (uh.Register IDKey salt (some httpUser)).2) ∧
    (∀ t, Payload.token t ∉ (uh.Register IDKey salt (some httpUser)).1.body) := by
  simp [UserHandler.Register, h, WriteMsg, WriteRespJSON, ResponseWriter.Write,
    ResponseWriter.WriteHeader, ResponseWriter.fresh]

/-- Instance of `register_existing_is_409`: registering `pike` again. -/
theorem register_existing_is_409_witness :
    sampleUserHandler.Repo.UserExists "pike" = true ∧
    (sampleUserHandler.Register sampleKey [1, 2, 3, 4, 5, 6, 7, 8]
      (some { Username := "pike", Password := [120] })).1.status = some 409 :=
  ⟨by decide,
   (register_existing_is_409 sampleKey sampleUserHandler [1, 2, 3, 4, 5, 6, 7, 8]
      { Username := "pike", Password := [120] } (by decide)).1⟩

/-! ## Sessions -/

theorem ParseInt_range (s : String) :
    -(2 ^ 63) ≤ (ParseInt s).1 ∧ (ParseInt s).1 ≤ 2 ^ 63 - 1 := by
  unfold ParseInt
  split
  · norm_num
  · rename_i c rest _
    simp only []
    split
    · norm_num
    · rename_i un e _
      by_cases hneg : c = '-'
      · simp only [hneg, decide_True, Bool.true_eq_false, false_and, if_false, true_and,
          if_true]
        split
        · norm_num
        · rename_i hle
          simp only []
          constructor <;> push_cast <;> omega
      · simp only [hneg, decide_False, true_and, Bool.false_eq_true, false_and, if_false]
        split
        · norm_num
        · rename_i hle
          simp only []
          constructor <;> push_cast <;> omega

theorem wrapInt64_of_range (x : Int) (h0 : 0 ≤ x) (h1 : x < 2 ^ 63) : wrapInt64 x = x := by
  unfold wrapInt64
  norm_num at h1 ⊢
  omega

theorem hget_append (db1 db2 : RedisDb) (key field : String) :
    RedisDb.hget (db1 ++ db2) key field
      = match RedisDb.hget db1 key field with
        | some v => some v
        | none => RedisDb.hget db2 key field := by
  induction db1 with
  | nil => simp [RedisDb.hget]
  | cons e rest ih =>
    obtain ⟨k, f, v⟩ := e
    by_cases h : k = key ∧ f = field
    · simp [RedisDb.hget, h]
    · simp only [List.cons_append, RedisDb.hget, h, if_false]
      exact ih

theorem hget_hdel (db : RedisDb) (key field key2 field2 : String) :
    RedisDb.hget (RedisDb.hdel db key field) key2 field2
      = if key2 = key ∧ field2 = field then none else RedisDb.hget db key2 field2 := by
  induction db with
  | nil => simp [RedisDb.hdel, RedisDb.hget]
  | cons e rest ih =>
    obtain ⟨k, f, v⟩ := e
    unfold RedisDb.hdel at ih ⊢
    by_cases h : k = key ∧ f = field
    · rw [List.filter_cons_of_neg (by simp [h]), ih]
      obtain ⟨rfl, rfl⟩ := h
      by_cases h2 : key2 = k ∧ field2 = f
      · simp [h2]
      · have h3 : ¬ (k = key2 ∧ f = field2) := fun hh => h2 ⟨hh.1.symm, hh.2.symm⟩
        simp [h2, RedisDb.hget, h3]
    · rw [List.filter_cons_of_pos (by simp only [h, decide_False, Bool.not_false])]
      by_cases h2 : k = key2 ∧ f = field2
      · obtain ⟨rfl, rfl⟩ := h2
        simp [RedisDb.hget, h]
      · simp only [RedisDb.hget, h2, if_false, ih]

theorem hget_hset_same (db : RedisDb) (key field value : String) :
    RedisDb.hget (RedisDb.hset db key field value) key field = some value := by
  unfold RedisDb.hset
  rw [hget_append, hget_hdel]
  simp [RedisDb.hget]

/-- C15: sliding expiry in `CheckRedis`, for a stored session whose expiry
parses to `exp` and a current Unix time `nowTs` that is not negative.  When the
session is not expired and `exp - nowTs < 86400`, one `HSET` is sent, with the
Unix time of the second `time.Now()` plus 90 days, and when it succeeds the
call succeeds and the stored expiry is that value.  When `exp - nowTs >= 86400`
the call succeeds and sends nothing but the `HGET`; when `nowTs > exp` it
returns an error and sends nothing but the `HGET`. -/
theorem check_redis_sliding_expiry (sm : SessionManager) (hsetErr : Option Error)
    (userId sessionId data : String) (nowTs laterTs : Int)
    (hstored : sm.redis.db.hget userId sessionId = some data) (hnow : 0 ≤ nowTs) :
    (nowTs ≤ (ParseInt data).1 ∧ (ParseInt data).1 - nowTs < 86400 →
      (sm.CheckRedis none hsetErr nowTs laterTs userId sessionId).2.redis.sent
        = sm.redis.sent ++ [RedisCmd.HGET userId sessionId,
            RedisCmd.HSET userId sessionId (toString (laterTs + 7776000))] ∧
      (hsetErr = none →
        (sm.CheckRedis none hsetErr nowTs laterTs userId sessionId).1 = (true, none) ∧
        (sm.CheckRedis none hsetErr nowTs laterTs userId sessionId).2.redis.db.hget
          userId sessionId = some (toString (laterTs + 7776000)))) ∧
    ((ParseInt data).1 - nowTs ≥ 86400 →
      (sm.CheckRedis none hsetErr nowTs laterTs userId sessionId).1 = (true, none) ∧
      (sm.CheckRedis none hsetErr nowTs laterTs userId sessionId).2.redis
        = { db := sm.redis.db, sent := sm.redis.sent ++ [RedisCmd.HGET userId sessionId] }) ∧
    (nowTs > (ParseInt data).1 →
      (sm.CheckRedis none hsetErr nowTs laterTs userId sessionId).1
        = (false, some (Error.base "session has beed expired")) ∧
      (sm.CheckRedis none hsetErr nowTs laterTs userId sessionId).2.redis
        = { db := sm.redis.db, sent := sm.redis.sent ++ [RedisCmd.HGET userId sessionId] }) := by
  have hr := ParseInt_range data
  have hr2 : (ParseInt data).1 ≤ 9223372036854775807 := by
    have := hr.2; norm_num at this; exact this
  refine ⟨?_, ?_, ?_⟩
  · rintro ⟨h1, h2⟩
    have hw : wrapInt64 ((ParseInt data).1 - nowTs) = (ParseInt data).1 - nowTs :=
      wrapInt64_of_range _ (by omega) (by norm_num; omega)
    have hng : ¬ nowTs > (ParseInt data).1 := by omega
    constructor
    · cases hsetErr <;>
        simp [SessionManager.CheckRedis, RedisConn.Do, hstored, hng, hw, h2,
          SessionManager.AddToRedis]
    · intro he
      subst he
      simp [SessionManager.CheckRedis, RedisConn.Do, hstored, hng, hw, h2,
        SessionManager.AddToRedis, hget_hset_same]
  · intro h1
    have hw : wrapInt64 ((ParseInt data).1 - nowTs) = (ParseInt data).1 - nowTs :=
      wrapInt64_of_range _ (by omega) (by norm_num; omega)
    have hng : ¬ nowTs > (ParseInt data).1 := by omega
    have h2 : ¬ (ParseInt data).1 - nowTs < 86400 := by omega
    simp [SessionManager.CheckRedis, RedisConn.Do, hstored, hng, hw, h2]
  · intro h1
    simp [SessionManager.CheckRedis, RedisConn.Do, hstored, h1]

/-- Instance of `check_redis_sliding_expiry`: a session expiring at 1000, checked
at 990. -/
theorem check_redis_sliding_expiry_witness :
    (sampleSessions.CheckRedis none none 990 990 "1" "sA").1 = (true, none) ∧
    (sampleSessions.CheckRedis none none 990 990 "1" "sA").2.redis.db.hget "1" "sA"
      = some (toString ((990 : Int) + 7776000)) :=
  ((check_redis_sliding_expiry sampleSessions none "1" "sA" "1000" 990 990
      (by decide) (by decide)).1 (by decide)).2 rfl

theorem mem_hgetall (db : RedisDb) (key field value : String) :
    (field, value) ∈ db.hgetall key ↔ (key, field, value) ∈ db := by
  unfold RedisDb.hgetall
  simp only [List.mem_map, List.mem_filter, decide_eq_true_eq]
  constructor
  · rintro ⟨⟨k, f, v⟩, ⟨hm, hk⟩, he⟩
    simp only [Prod.mk.injEq] at he
    obtain ⟨rfl, rfl⟩ := he
    simp only at hk
    subst hk
    exact hm
  · intro hm
    exact ⟨(key, field, value), ⟨hm, rfl⟩, rfl⟩

/-- C17: without an authenticated user in the request context, `Add`, `Delete`
and `vote` (hence `Upvote`, `Downvote`, `Unvote`) respond with status 400,
whereas `AddComment` with a well-formed body responds with status 500; none of
them makes a repository call or changes the collection. -/
theorem anonymous_identity_handlers (r : Repo) (e1 e2 : Option Error) (retryErrs : List (Option Error))
    (body : Option Post)
    (now : Int) (newId postId commentText cmtId : String) (score : VotingScore) :
    ((PostHandler.Add r e1 none body now newId).w.status = some 400 ∧
      (PostHandler.Add r e1 none body now newId).calls = [] ∧
      (PostHandler.Add r e1 none body now newId).repo = r) ∧
    ((PostHandler.Delete r e1 none postId).w.status = some 400 ∧
      (PostHandler.Delete r e1 none postId).calls = [] ∧
      (PostHandler.Delete r e1 none postId).repo = r) ∧
    ((PostHandler.vote r e1 e2 retryErrs none postId score).w.status = some 400 ∧
      (PostHandler.vote r e1 e2 retryErrs none postId score).calls = [] ∧
      (PostHandler.vote r e1 e2 retryErrs none postId score).repo = r) ∧
    ((PostHandler.Upvote r e1 e2 retryErrs none postId).w.status = some 400 ∧
      (PostHandler.Downvote r e1 e2 retryErrs none postId).w.status = some 400 ∧
      (PostHandler.Unvote r e1 e2 retryErrs none postId).w.status = some 400) ∧
    ((PostHandler.AddComment r e1 none postId (some commentText) cmtId now).w.status = some 500 ∧
      (PostHandler.AddComment r e1 none postId (some commentText) cmtId now).w.body
        = [Payload.msg "not authorized"] ∧
      (PostHandler.AddComment r e1 none postId (some commentText) cmtId now).calls = [] ∧
      (PostHandler.AddComment r e1 none postId (some commentText) cmtId now).repo = r) := by
  refine ⟨⟨rfl, rfl, rfl⟩, ⟨rfl, rfl, rfl⟩, ⟨rfl, rfl, rfl⟩, ⟨rfl, rfl, rfl⟩, ⟨rfl, rfl, rfl, rfl⟩⟩

/-- C18: `Delete` calls `PostRepo.Delete` only when the fetched post has an
author whose id is the authenticated user's id; when the ids differ it responds
500, makes no `Delete` call and leaves the collection as it was; when the ids
agree and the deletion succeeds it responds 200 and the first document with
that id is gone from the collection. -/
theorem delete_is_author_only (r : Repo) (deleteOneErr : Option Error) (ctx : Option User)
    (postId : String) :
    (∀ id, RepoCall.Delete id ∈ (PostHandler.Delete r deleteOneErr ctx postId).calls →
      ∃ authUser post author, ctx = some authUser ∧ r.GetById postId = Except.ok post ∧
        post.Author = some author ∧ author.Id = authUser.Id) ∧
    (∀ authUser post author, ctx = some authUser → r.GetById postId = Except.ok post →
      post.Author = some author → author.Id ≠ authUser.Id →
      (PostHandler.Delete r deleteOneErr ctx postId).w.status = some 500 ∧
      (∀ id, RepoCall.Delete id ∉ (PostHandler.Delete r deleteOneErr ctx postId).calls) ∧
      (PostHandler.Delete r deleteOneErr ctx postId).repo = r) ∧
    (∀ authUser post author, ctx = some authUser → r.GetById postId = Except.ok post →
      post.Author = some author → author.Id = authUser.Id → deleteOneErr = none →
      (PostHandler.Delete r deleteOneErr ctx postId).w.status = some 200 ∧
      (PostHandler.Delete r deleteOneErr ctx postId).repo.posts = deleteOne r.posts postId) := by
  refine ⟨?_, ?_, ?_⟩
  · intro id hcall
    cases ctx with
    | none => simp [PostHandler.Delete, GetAuthUser] at hcall
    | some authUser =>
      cases hg : r.GetById postId with
      | error e => simp [PostHandler.Delete, GetAuthUser, hg] at hcall
      | ok post =>
        cases ha : post.Author with
        | none => simp [PostHandler.Delete, GetAuthUser, hg, ha] at hcall
        | some author =>
          by_cases hid : author.Id = authUser.Id
          · exact ⟨authUser, post, author, rfl, rfl, ha, hid⟩
          · simp [PostHandler.Delete, GetAuthUser, hg, ha, hid] at hcall
  · intro authUser post author hctx hg ha hid
    subst hctx
    simp [PostHandler.Delete, GetAuthUser, hg, ha, hid, WriteMsg, WriteRespJSON,
      ResponseWriter.Write, ResponseWriter.WriteHeader, ResponseWriter.fresh]
  · intro authUser post author hctx hg ha hid he
    subst hctx he
    simp [PostHandler.Delete, GetAuthUser, hg, ha, hid, Repo.Delete, WriteMsg, WriteRespJSON,
      ResponseWriter.Write, ResponseWriter.WriteHeader, ResponseWriter.fresh]

/-- Instance of `delete_is_author_only`: `rob` may not delete the post of
`pike`, and `pike` may. -/
theorem delete_is_author_only_witness :
    (PostHandler.Delete sampleRepo none (some rob) "p1").w.status = some 500 ∧
    (PostHandler.Delete sampleRepo none (some rob) "p1").repo = sampleRepo ∧
    (PostHandler.Delete sampleRepo none (some pike) "p1").w.status = some 200 ∧
    (PostHandler.Delete sampleRepo none (some pike) "p1").repo.posts = [] :=
  ⟨((delete_is_author_only sampleRepo none (some rob) "p1").2.1 rob
      { mkPost "p1" [] with Author := some pike } pike rfl rfl rfl (by decide)).1,
   ((delete_is_author_only sampleRepo none (some rob) "p1").2.1 rob
      { mkPost "p1" [] with Author := some pike } pike rfl rfl rfl (by decide)).2.2,
   ((delete_is_author_only sampleRepo none (some pike) "p1").2.2 pike
      { mkPost "p1" [] with Author := some pike } pike rfl rfl rfl rfl rfl).1,
   by decide⟩

/-! ## The authentication middleware -/

/-- C19: the next handler finds an authenticated user (`GetAuthUser` on its
context succeeds) only when the `Authorization` header is present,
`UserFromToken` accepts it and `GetById` succeeds for the id of the token's
user, and the user found is the one `GetById` returned.  Without a header, or
with a rejected token, the next handler runs and `GetAuthUser` on its context
fails.  When `GetById` fails the middleware responds with status 400 and the
next handler does not run. -/
theorem middleware_authenticates (auth : Auth) (authHeader : String) :
    (∀ ctx u, auth.Middleware authHeader = MiddlewareOut.next ctx → GetAuthUser ctx = Except.ok u →
      authHeader ≠ "" ∧
      ∃ userFromToken, auth.SessionManager.UserFromToken authHeader = Except.ok userFromToken ∧
        auth.UserRepo.GetById userFromToken.Id = (some u, none)) ∧
    ((authHeader = "" ∨ ∃ e, auth.SessionManager.UserFromToken authHeader = Except.error e) →
      auth.Middleware authHeader = MiddlewareOut.next none ∧
      GetAuthUser none = Except.error (Error.base "sessions: no session found")) ∧
    (∀ userFromToken e, authHeader ≠ "" →
      auth.SessionManager.UserFromToken authHeader = Except.ok userFromToken →
      (auth.UserRepo.GetById userFromToken.Id).2 = some e →
      auth.Middleware authHeader
        = MiddlewareOut.responded
            { status := some 400, body := [Payload.msg "user not found"] }) := by
  refine ⟨?_, ?_, ?_⟩
  · intro ctx u hm hg
    by_cases hh : authHeader = ""
    · simp only [Auth.Middleware, hh, if_true, MiddlewareOut.next.injEq] at hm
      subst hm
      simp [GetAuthUser] at hg
    · refine ⟨hh, ?_⟩
      cases ht : auth.SessionManager.UserFromToken authHeader with
      | error e =>
        simp only [Auth.Middleware, hh, if_false, ht, MiddlewareOut.next.injEq] at hm
        subst hm
        simp [GetAuthUser] at hg
      | ok userFromToken =>
        refine ⟨userFromToken, rfl, ?_⟩
        cases hr : auth.UserRepo.GetById userFromToken.Id with
        | mk user err =>
          cases err with
          | some e => simp [Auth.Middleware, hh, ht, hr] at hm
          | none =>
            simp only [Auth.Middleware, hh, if_false, ht, hr, MiddlewareOut.next.injEq] at hm
            subst hm
            cases user with
            | none => simp [GetAuthUser] at hg
            | some v =>
              simp only [GetAuthUser, Except.ok.injEq] at hg
              rw [hg]
  · rintro (hh | ⟨e, ht⟩)
    · simp [Auth.Middleware, hh, GetAuthUser]
    · by_cases hh : authHeader = ""
      · simp [Auth.Middleware, hh, GetAuthUser]
      · simp [Auth.Middleware, hh, ht, GetAuthUser]
  · intro userFromToken e hh ht hr
    cases hg : auth.UserRepo.GetById userFromToken.Id with
    | mk user err =>
      rw [hg] at hr
      simp only at hr
      subst hr
      simp [Auth.Middleware, hh, ht, hg, WriteMsg, WriteRespJSON, ResponseWriter.Write,
        ResponseWriter.WriteHeader, ResponseWriter.fresh]

/-- Instance of `middleware_authenticates`: an accepted token of `pike`, a
rejected token, and a token whose user the repository does not know. -/
theorem middleware_authenticates_witness :
    sampleAuth.Middleware "Bearer good" = MiddlewareOut.next (some pike) ∧
    sampleAuth.Middleware "Bearer bad" = MiddlewareOut.next none ∧
    sampleAuth.Middleware "Bearer gone"
      = MiddlewareOut.responded { status := some 400, body := [Payload.msg "user not found"] } :=
  ⟨by decide,
   ((middleware_authenticates sampleAuth "Bearer bad").2.1
      (Or.inr ⟨Error.base "sessions: token is not valid", by simp [sampleAuth]⟩)).1,
   (middleware_authenticates sampleAuth "Bearer gone").2.2
      { Username := "gone", Id := "9", Password := [] }
      (Error.wrap "user/repo: could not scan row: " (Error.base "sql: no rows in result set"))
      (by decide) (by simp [sampleAuth]) (by simp [sampleAuth])⟩

/-! ## Adding a post -/

/-- C20: for every post, `Repo.Add` returns the id of the post and a nil error
when the insert succeeds (and the post is stored), and the empty `PostId` with
an error wrapping the insert error when the insert fails (and nothing is
stored). -/
theorem add_returns_id_or_error (r : Repo) (p : Post) :
    r.Add none p = ((p.Id, none), { posts := r.posts ++ [p] }) ∧
    ∀ err, r.Add (some err) p
      = (("", some (Error.wrap "post/repo: failed inserting a post: " err)), r) :=
  ⟨rfl, fun _ => rfl⟩

/-! ## Adding a user, listing posts -/

/-- C21: `UserRepo.Add` returns the decimal string of `LastInsertId` and a nil
error exactly when the `INSERT` succeeds, `LastInsertId` succeeds and the id is
not 0; otherwise it returns the empty string and an error: the error of the
`INSERT`, the wrapped error of `LastInsertId`, or "user wasn't added" for
id 0. -/
theorem user_add_result (r : UserRepo) (execErr lastIdErr : Option Error) (lastInsertId : Int)
    (u : User) :
    ((r.Add execErr lastInsertId lastIdErr u).1.2 = none ↔
      execErr = none ∧ lastIdErr = none ∧ lastInsertId ≠ 0) ∧
    (execErr = none → lastIdErr = none → lastInsertId ≠ 0 →
      (r.Add execErr lastInsertId lastIdErr u).1 = (toString lastInsertId, none)) ∧
    (∀ err, execErr = some err →
      (r.Add execErr lastInsertId lastIdErr u).1 = ("", some err)) ∧
    (∀ err, execErr = none → lastIdErr = some err →
      (r.Add execErr lastInsertId lastIdErr u).1
        = ("", some (Error.wrap "user/repo: user wasn't added: " err))) ∧
    (execErr = none → lastIdErr = none → lastInsertId = 0 →
      (r.Add execErr lastInsertId lastIdErr u).1
        = ("", some (Error.base "user/repo: user wasn't added, LastInsertId is 0"))) := by
  cases execErr with
  | some e => simp [UserRepo.Add]
  | none =>
    cases lastIdErr with
    | some e => simp [UserRepo.Add]
    | none =>
      by_cases h0 : lastInsertId = 0
      · simp [UserRepo.Add, h0]
      · simp [UserRepo.Add, h0]

/-- Instance of `user_add_result`: the store reports id 7, and id 0. -/
theorem user_add_result_witness :
    (UserRepo.Add { rows := [] } none 7 none pike).1 = (toString (7 : Int), none) ∧
    (UserRepo.Add { rows := [] } none 0 none pike).1
      = ("", some (Error.base "user/repo: user wasn't added, LastInsertId is 0")) :=
  ⟨(user_add_result { rows := [] } none none 7 pike).2.1 rfl rfl (by decide),
   (user_add_result { rows := [] } none none 0 pike).2.2.2.2 rfl rfl rfl⟩

/-- C22: when `Find` and `cursor.All` succeed, `GetUserPosts` and
`GetCategoryPosts` return a nil error and exactly the posts the cursor yields,
in its order, as a non-nil slice: when nothing matches, the empty slice and
not nil. -/
theorem list_posts_result (r : Repo) (category username : String) :
    r.GetCategoryPosts none none category
      = (some (r.posts.filter (fun p => decide (p.Category = category))), none) ∧
    r.GetUserPosts none none username
      = (some (r.posts.filter
          (fun p => decide (p.Author.map User.Username = some username))), none) ∧
    (r.GetCategoryPosts none none category).1 ≠ none ∧
    (r.GetUserPosts none none username).1 ≠ none ∧
    ((∀ p ∈ r.posts, p.Category ≠ category) →
      r.GetCategoryPosts none none category = (some [], none)) ∧
    ((∀ p ∈ r.posts, p.Author.map User.Username ≠ some username) →
      r.GetUserPosts none none username = (some [], none)) := by
  have hc : r.GetCategoryPosts none none category
      = (some (r.posts.filter (fun p => decide (p.Category = category))), none) := by
    simp only [Repo.GetCategoryPosts, cursorAll]
  have hu : r.GetUserPosts none none username
      = (some (r.posts.filter
          (fun p => decide (p.Author.map User.Username = some username))), none) := by
    simp only [Repo.GetUserPosts, cursorAll]
  refine ⟨hc, hu, ?_, ?_, ?_, ?_⟩
  · rw [hc]; simp
  · rw [hu]; simp
  · intro h
    rw [hc]
    have : r.posts.filter (fun p => decide (p.Category = category)) = [] := by
      rw [List.filter_eq_nil_iff]
      intro p hp
      simpa using h p hp
    rw [this]
  · intro h
    rw [hu]
    have : r.posts.filter (fun p => decide (p.Author.map User.Username = some username))
        = [] := by
      rw [List.filter_eq_nil_iff]
      intro p hp
      simpa using h p hp
    rw [this]

/-- Instance of `list_posts_result`: no post of the sample collection is in the
category `music` or was written by `rob`. -/
theorem list_posts_result_witness :
    sampleRepo.GetCategoryPosts none none "music" = (some [], none) ∧
    sampleRepo.GetUserPosts none none "rob" = (some [], none) :=
  ⟨(list_posts_result sampleRepo "music" "rob").2.2.2.2.1 (by decide),
   (list_posts_result sampleRepo "music" "rob").2.2.2.2.2 (by decide)⟩

/-! ## The post invariant at creation -/

/-- C23: a post stored by `PostHandler.Add` is the decoded body with `Created`,
`Id`, `Author`, `Votes` and `Comments` replaced; `Score` and `UpvotePercentage`
are those of the body.  For a body with score 5 and percentage 77 the stored
post has no votes, score 5 and percentage 77, so its score is not
`upvoteCount - downvoteCount`. -/
theorem add_keeps_body_score :
    (∀ (r : Repo) (author : User) (body : Post) (now : Int) (newId : String),
      (PostHandler.Add r none (some author) (some body) now newId).repo.posts
        = r.posts ++ [{ body with
            Created := now, Id := newId, Author := some author, Votes := [],
            Comments := [] }]) ∧
    (PostHandler.Add { posts := [] } none (some pike) (some boastfulBody) 0 "abc").w.status
      = some 201 ∧
    (PostHandler.Add { posts := [] } none (some pike) (some boastfulBody) 0 "abc").repo.posts
      = [{ mkPost "abc" [] with
           Author := some pike, Title := "t", Text := "x", Category := "music", Score := 5,
           UpvotePercentage := 77 }] ∧
    (5 : Int) ≠ upvoteCount [] - downvoteCount [] := by
  refine ⟨fun _ _ _ _ _ => rfl, by decide, by decide, by decide⟩

/-! ## Frame and round trip of the vote transition -/

/-- C24: for a post in which the voter has no vote, a vote with a nonzero score
followed by any vote of the same voter (same score, opposite score or 0) yields
the original vote list, element for element and in the original order, and the
`Score` and `UpvotePercentage` that `updatePercentage` computes from the
original list. -/
theorem vote_twice_restores (post : Post) (userId : String) (s s2 : VotingScore)
    (h : ¬ hasVote post.Votes userId) (hs : s ≠ 0) :
    (voteMutation (voteMutation post { UserId := userId, Score := s })
        { UserId := userId, Score := s2 }).Votes = post.Votes ∧
    (voteMutation (voteMutation post { UserId := userId, Score := s })
        { UserId := userId, Score := s2 }).Score = (updatePercentage post).Score ∧
    (voteMutation (voteMutation post { UserId := userId, Score := s })
        { UserId := userId, Score := s2 }).UpvotePercentage
      = (updatePercentage post).UpvotePercentage ∧
    (voteMutation (voteMutation post { UserId := userId, Score := s })
        { UserId := userId, Score := s2 }).Score
      = upvoteCount post.Votes - downvoteCount post.Votes := by
  have hv := voteMutation_insert_then_vote post userId s s2 h hs
  refine ⟨hv, ?_, ?_, ?_⟩
  · rw [voteMutation_score, hv, updatePercentage_score]
  · rw [voteMutation_pct, hv, updatePercentage_pct]
  · rw [voteMutation_score, hv]

/-- Instance of `vote_twice_restores`: an upvote then a downvote of `u` on a
post holding votes of two other users. -/
theorem vote_twice_restores_witness :
    (voteMutation (voteMutation
        (mkPost "p" [{ UserId := "a", Score := 1 }, { UserId := "b", Score := -1 }])
        { UserId := "u", Score := 1 }) { UserId := "u", Score := -1 }).Votes
      = [{ UserId := "a", Score := 1 }, { UserId := "b", Score := -1 }] :=
  (vote_twice_restores
    (mkPost "p" [{ UserId := "a", Score := 1 }, { UserId := "b", Score := -1 }]) "u" 1 (-1)
    (by decide) (by decide)).1

theorem voteMutation_frame (post : Post) (newVote : Vote) :
    voteMutation post newVote
      = { post with
          Votes := (voteMutation post newVote).Votes
          Score := (voteMutation post newVote).Score
          UpvotePercentage := (voteMutation post newVote).UpvotePercentage } := by
  unfold voteMutation
  simp only []
  split <;> rfl

theorem voteMutation_others_perm (post : Post) (newVote : Vote) :
    ((voteMutation post newVote).Votes.filter
        (fun v => decide (v.UserId ≠ newVote.UserId))).Perm
      (post.Votes.filter (fun v => decide (v.UserId ≠ newVote.UserId))) := by
  by_cases h : hasVote post.Votes newVote.UserId
  · rw [voteMutation_votes_remove post newVote h]
    obtain ⟨mid, v, suf, e, hv, hm⟩ := hasVote_split h
    rw [e, removeVoteLoop_split _ mid suf v hm hv]
    rw [List.filter_append, List.filter_append, List.filter_cons_of_neg (by simp [hv])]
    exact List.Perm.append_left _ ((moved_last_perm v suf).filter _)
  · by_cases hs : newVote.Score ≠ 0
    · rw [voteMutation_votes_insert post newVote h hs, List.filter_append]
      simp
    · rw [voteMutation_votes_noop post newVote h (not_not.mp hs)]

/-- C25: a vote touches only the voter's entry: the entries of other users are
the same multiset before and after the transition; the length of the
collection drops by 1 when the voter had an entry, grows by 1 when the voter
had none and the score is nonzero, and is unchanged otherwise; and no field of
the post other than `Votes`, `Score` and `UpvotePercentage` changes. -/
theorem vote_touches_only_voter (post : Post) (newVote : Vote) :
    ((voteMutation post newVote).Votes.filter
        (fun v => decide (v.UserId ≠ newVote.UserId))).Perm
      (post.Votes.filter (fun v => decide (v.UserId ≠ newVote.UserId))) ∧
    (if hasVote post.Votes newVote.UserId then
        (voteMutation post newVote).Votes.length + 1 = post.Votes.length
      else if newVote.Score ≠ 0 then
        (voteMutation post newVote).Votes.length = post.Votes.length + 1
      else
        (voteMutation post newVote).Votes.length = post.Votes.length) ∧
    voteMutation post newVote
      = { post with
          Votes := (voteMutation post newVote).Votes
          Score := (voteMutation post newVote).Score
          UpvotePercentage := (voteMutation post newVote).UpvotePercentage } := by
  refine ⟨voteMutation_others_perm post newVote, ?_, voteMutation_frame post newVote⟩
  by_cases h : hasVote post.Votes newVote.UserId
  · rw [if_pos h, (voteMutation_votes_remove_perm post newVote h).length_eq]
    obtain ⟨mid, v, suf, e, hv, hm⟩ := hasVote_split h
    rw [e, List.eraseP_append_right _ (by simpa using hm)]
    simp [hv]
    omega
  · rw [if_neg h]
    by_cases hs : newVote.Score ≠ 0
    · rw [if_pos hs, voteMutation_votes_insert post newVote h hs]
      simp
    · rw [if_neg hs, voteMutation_votes_noop post newVote h (not_not.mp hs)]

/-! ## Failure of `Repo.Vote` and the caller's post -/

/-- C26, as stated, fails: when the `Update` inside the callback fails,
`Repo.Vote` returns an error and the post passed in has been changed, here
from no votes, score 0 and percentage 0 to one upvote, score 1 and percentage
100. -/
theorem failed_update_leaves_post_mutated :
    (Repo.Vote { posts := [mkPost "p" []] } none (some (Error.base "write failed")) []
        (mkPost "p" []) { UserId := "u", Score := ScoreUp }).err ≠ none ∧
    (Repo.Vote { posts := [mkPost "p" []] } none (some (Error.base "write failed")) []
        (mkPost "p" []) { UserId := "u", Score := ScoreUp }).post
      = { mkPost "p" [{ UserId := "u", Score := 1 }] with Score := 1, UpvotePercentage := 100 } ∧
    (Repo.Vote { posts := [mkPost "p" []] } none (some (Error.base "write failed")) []
        (mkPost "p" []) { UserId := "u", Score := ScoreUp }).post ≠ mkPost "p" [] := by
  decide

/-- C26, amended: if `Repo.Vote` returns an error because the session could not
be started, the callback was not entered and the post passed in is unchanged.
If it returns an error after the session started, the first `Update` failed,
the callback ran at least once, and the post passed in holds the vote
transition applied once for every run of the callback: the transition applied
once when the `Update` error has no label `TransientTransactionError` or there
is no time left to retry. -/
theorem vote_error_effects (r : Repo) (startSessionErr updateOneErr : Option Error)
    (retryErrs : List (Option Error)) (post : Post) (newVote : Vote)
    (herr : (r.Vote startSessionErr updateOneErr retryErrs post newVote).err ≠ none) :
    (startSessionErr ≠ none →
      (r.Vote startSessionErr updateOneErr retryErrs post newVote).callbackRuns = 0 ∧
      (r.Vote startSessionErr updateOneErr retryErrs post newVote).post = post) ∧
    (startSessionErr = none →
      updateOneErr ≠ none ∧
      1 ≤ (r.Vote startSessionErr updateOneErr retryErrs post newVote).callbackRuns ∧
      (r.Vote startSessionErr updateOneErr retryErrs post newVote).post
        = voteAll post (List.replicate
            (r.Vote startSessionErr updateOneErr retryErrs post newVote).callbackRuns newVote)) ∧
    (∀ e, startSessionErr = none → updateOneErr = some e →
      (e.hasLabel "TransientTransactionError" = false ∨ retryErrs = []) →
      (r.Vote startSessionErr updateOneErr retryErrs post newVote).post
        = voteMutation post newVote) := by
  refine ⟨?_, ?_, ?_⟩
  · intro hs
    cases startSessionErr with
    | none => exact absurd rfl hs
    | some e => simp [Repo.Vote]
  · intro hs
    subst hs
    refine ⟨?_, ?_⟩
    · intro hu
      subst hu
      rw [vote_single_run_eq r none retryErrs post newVote (Or.inl rfl)] at herr
      exact herr rfl
    · rw [vote_started_eq]
      obtain ⟨i1, _, i3, _, _⟩ :=
        withTransaction_voteRun newVote updateOneErr retryErrs (post, r)
      exact ⟨i1, i3⟩
  · intro e hs hu hl
    subst hs hu
    have hcond : (some e : Option Error) = none ∨ retryErrs = [] ∨
        ∃ e2, some e = some e2 ∧ e2.hasLabel "TransientTransactionError" = false := by
      rcases hl with hl | hl
      · exact Or.inr (Or.inr ⟨e, rfl, hl⟩)
      · exact Or.inr (Or.inl hl)
    rw [vote_single_run_eq r (some e) retryErrs post newVote hcond]

/-- Instance of `vote_error_effects`: `StartSession` fails; and every `Update`
of three runs fails with a labelled error, which leaves the upvote applied three
times, that is, added, removed and added again. -/
theorem vote_error_effects_witness :
    (Repo.Vote { posts := [mkPost "p" []] } (some (Error.base "no session")) none []
        (mkPost "p" []) { UserId := "u", Score := ScoreUp }).post = mkPost "p" [] ∧
    (Repo.Vote { posts := [mkPost "p" []] } none
        (some (Error.labelled "TransientTransactionError" "write conflict"))
        [some (Error.labelled "TransientTransactionError" "write conflict"),
         some (Error.labelled "TransientTransactionError" "write conflict")]
        (mkPost "p" []) { UserId := "u", Score := ScoreUp }).callbackRuns = 3 ∧
    (Repo.Vote { posts := [mkPost "p" []] } none
        (some (Error.labelled "TransientTransactionError" "write conflict"))
        [some (Error.labelled "TransientTransactionError" "write conflict"),
         some (Error.labelled "TransientTransactionError" "write conflict")]
        (mkPost "p" []) { UserId := "u", Score := ScoreUp }).post
      = voteAll (mkPost "p" []) (List.replicate
          (Repo.Vote { posts := [mkPost "p" []] } none
            (some (Error.labelled "TransientTransactionError" "write conflict"))
            [some (Error.labelled "TransientTransactionError" "write conflict"),
             some (Error.labelled "TransientTransactionError" "write conflict")]
            (mkPost "p" []) { UserId := "u", Score := ScoreUp }).callbackRuns
          { UserId := "u", Score := ScoreUp }) :=
  ⟨((vote_error_effects { posts := [mkPost "p" []] } (some (Error.base "no session")) none []
      (mkPost "p" []) { UserId := "u", Score := ScoreUp } (by decide)).1 (by decide)).2,
   by decide,
   ((vote_error_effects { posts := [mkPost "p" []] } none
      (some (Error.labelled "TransientTransactionError" "write conflict"))
      [some (Error.labelled "TransientTransactionError" "write conflict"),
       some (Error.labelled "TransientTransactionError" "write conflict")]
      (mkPost "p" []) { UserId := "u", Score := ScoreUp } (by decide)).2.1 rfl).2.2⟩

/-! ## The salt slice -/

theorem RandStringRunes_length (n : Nat) (intn : Nat → Nat) :
    (RandStringRunes n intn).length = n := by
  simp [RandStringRunes]

theorem Register_add_password (IDKey : List Nat → List Nat → List Nat) (uh : UserHandler)
    (salt : List Nat) (body : Option HttpUser) (v : User)
    (hv : UserCall.Add v ∈ (uh.Register IDKey salt body).2) :
    ∃ httpUser, body = some httpUser ∧ v.Password = HashPass IDKey httpUser.Password salt := by
  cases body with
  | none => simp [UserHandler.Register] at hv
  | some httpUser =>
    refine ⟨httpUser, rfl, ?_⟩
    unfold UserHandler.Register at hv
    cases he : uh.Repo.UserExists httpUser.Username with
    | true => simp [he] at hv
    | false =>
      simp only [he] at hv
      generalize uh.Repo.Add _ = added at hv
      cases added with
      | error e =>
        simp at hv
        rw [hv]
      | ok id =>
        simp only [UserHandler.sendToken] at hv
        generalize uh.SessionManager.CreateToken _ = tk at hv
        cases tk with
        | error e =>
          simp at hv
          rw [hv]
        | ok token =>
          simp at hv
          rw [hv]

/-- C27, as stated, fails: for a row found by username whose stored password
is empty, the slice expression `u.Password[0:8]` is out of range and the call
panics instead of returning. -/
theorem empty_password_panics :
    UserRepo.GetByUsernameAndPass sampleKey
        { rows := [{ Username := "pike", Id := "1", Password := [] }] } none "pike"
        [115, 100, 102]
      = Outcome.panicked "slice bounds out of range" := by
  rfl

/-- C27, amended: for every row found by username whose stored password is not
empty, the slice expression `u.Password[0:8]` is within the capacity of the
scanned password and the call returns, a user or an error; for a stored
password of 1 to 7 bytes it returns the error "password is invalid".  And when
the key derivation yields 32 bytes, every password `Register` hands to
`Repo.Add`, made by `HashPass` with the salt `RandStringRunes(8)`, has
8 + 32 = 40 bytes. -/
theorem salt_slice_in_bounds (IDKey : List Nat → List Nat → List Nat) (r : UserRepo)
    (uname : String) (pass : List Nat) (u : User)
    (hrow : queryRowByUsername r.rows uname = some u) (hne : u.Password ≠ [])
    (hkey : ∀ p s, (IDKey p s).length = 32) :
    (∃ res, r.GetByUsernameAndPass IDKey none uname pass = Outcome.returned res) ∧
    (u.Password.length < 8 →
      r.GetByUsernameAndPass IDKey none uname pass
        = Outcome.returned (Except.error (Error.base "user/repo: password is invalid"))) ∧
    (∀ (p : List Nat) (intn : Nat → Nat),
      (HashPass IDKey p (RandStringRunes 8 intn)).length = 40) ∧
    (∀ (uh : UserHandler) (intn : Nat → Nat) (body : Option HttpUser) (v : User),
      UserCall.Add v ∈ (uh.Register IDKey (RandStringRunes 8 intn) body).2 →
      v.Password.length = 40) := by
  have hhash : ∀ (p : List Nat) (intn : Nat → Nat),
      (HashPass IDKey p (RandStringRunes 8 intn)).length = 40 := by
    intro p intn
    rw [HashPass, List.length_append, RandStringRunes_length, hkey]
  have hpos : 1 ≤ u.Password.length := by
    cases hp : u.Password with
    | nil => exact absurd hp hne
    | cons b bs => simp
  refine ⟨?_, ?_, hhash, ?_⟩
  · by_cases hl : u.Password.length < 8
    · exact ⟨_, GetByUsernameAndPass_of_short IDKey r uname pass u hrow hpos hl⟩
    · rw [GetByUsernameAndPass_of_row IDKey r uname pass u hrow (by omega)]
      split
      · exact ⟨_, rfl⟩
      · exact ⟨_, rfl⟩
  · intro hl
    exact GetByUsernameAndPass_of_short IDKey r uname pass u hrow hpos hl
  · intro uh intn body v hv
    obtain ⟨httpUser, _, hp⟩ := Register_add_password IDKey uh _ body v hv
    rw [hp]
    exact hhash _ _

/-- Instance of `salt_slice_in_bounds`: a stored password of three bytes, and a
salt drawn by `RandStringRunes`. -/
theorem salt_slice_in_bounds_witness :
    UserRepo.GetByUsernameAndPass zeroKey
        { rows := [{ Username := "pike", Id := "1", Password := [1, 2, 3] }] } none "pike" [120]
      = Outcome.returned (Except.error (Error.base "user/repo: password is invalid")) ∧
    (HashPass zeroKey [120] (RandStringRunes 8 (fun i => 7 * i))).length = 40 :=
  ⟨(salt_slice_in_bounds zeroKey
      { rows := [{ Username := "pike", Id := "1", Password := [1, 2, 3] }] } "pike" [120]
      { Username := "pike", Id := "1", Password := [1, 2, 3] } (by decide) (by decide)
      (fun _ _ => List.length_replicate 32 0)).2.1 (by decide),
   (salt_slice_in_bounds zeroKey
      { rows := [{ Username := "pike", Id := "1", Password := [1, 2, 3] }] } "pike" [120]
      { Username := "pike", Id := "1", Password := [1, 2, 3] } (by decide) (by decide)
      (fun _ _ => List.length_replicate 32 0)).2.2.1 [120] (fun i => 7 * i)⟩

end Crud
